import Mathlib

/-
  Verification development for the ljson JSON library
  (single-header C++ library, src/include/ljson.hpp).

  The embedding below translates the library's core — the tagged scalar
  `value`, the shared-ownership `node` DOM, the `std::map`/`std::vector`
  containers, the character-driven parsing state machine and the
  serializer — into executable Lean definitions.  C++ shared_ptr heap
  cells are made explicit as three typed stores (values / arrays /
  objects) indexed by natural-number addresses; a `node` holds the
  variant alternative together with its address, exactly mirroring
  `std::variant<shared_ptr<value>, shared_ptr<array>, shared_ptr<object>>`.
  Throwing functions and `ljson::expected` are modelled with `Except`.
  Machine integers are modelled with `Int`/`Nat` (no overflow is reachable
  in the verified scenarios); C++ `double` is modelled with `Rat`, and
  `std::to_string(double)` by exact fixed-point rendering with six
  fractional digits, which agrees with the C++ behaviour on every decimal
  value exercised here.  Error message strings do not influence any
  verified property, so `std::format` interpolation is elided: messages
  keep only their static descriptive text.
-/

/-- decidable equality of Except results, used to evaluate the model on
    concrete inputs. -/
instance exceptDecEq {ε α : Type} [DecidableEq ε] [DecidableEq α] :
    DecidableEq (Except ε α) := fun x y =>
  match x, y with
  | .ok a, .ok b =>
    if h : a = b then isTrue (by rw [h])
    else isFalse (fun e => h (Except.ok.inj e))
  | .error a, .error b =>
    if h : a = b then isTrue (by rw [h])
    else isFalse (fun e => h (Except.error.inj e))
  | .ok _, .error _ => isFalse (fun e => Except.noConfusion e)
  | .error _, .ok _ => isFalse (fun e => Except.noConfusion e)

namespace ljson

/-- enum class error_type (ljson.hpp:310); the final enumerator is spelled
    `wronge_index` in the source. -/
inductive error_type where
  | none
  | key_not_found
  | filesystem_error
  | parsing_error
  | parsing_error_wrong_type
  | wrong_type
  | wronge_index
deriving DecidableEq, Repr

/-- class error (ljson.hpp:324): an error kind together with a message. -/
structure error where
  err_type : error_type
  msg : String
deriving DecidableEq, Repr

/-- error::value() returns the stored error_type (ljson.hpp:3164). -/
def error.value (e : error) : error_type := e.err_type

/-- enum class value_type (ljson.hpp:366). -/
inductive value_type where
  | none
  | string
  | number
  | integer
  | double_t
  | null
  | boolean
  | temp_escape_type
  | unknown
deriving DecidableEq, Repr

/-- enum class node_type (ljson.hpp:386). -/
inductive node_type where
  | object
  | array
  | value
deriving DecidableEq, Repr

/-- enum class json_syntax (ljson.hpp:392); renamed json_syn here. -/
inductive json_syn where
  | opening_bracket
  | closing_bracket
  | quotes_1
  | quotes_2
  | column
  | string_value
  | object
  | array
  | maybe_empty_space_after
  | flush_value
deriving DecidableEq, Repr

/-- enum class key_type (ljson.hpp:405). -/
inductive key_type where
  | none
  | simple_key
  | object
  | array
deriving DecidableEq, Repr

/-- is_num_decimal (ljson.hpp:290): all characters are digits with at most
    one '.' anywhere; the empty string is rejected.  The mutable
    `has_decimal` flag of the std::all_of lambda is the Bool parameter. -/
def is_num_decimal_go : List Char → Bool → Bool
  | [], _ => true
  | c :: rest, has_decimal =>
    if c.isDigit then is_num_decimal_go rest has_decimal
    else if c = '.' && !has_decimal then is_num_decimal_go rest true
    else false

/-- is_num_decimal on the character list of the token. -/
def is_num_decimal (x : List Char) : Bool :=
  if x.isEmpty then false else is_num_decimal_go x false

/-- std::variant of class value (ljson.hpp:447):
    string, double, int64_t, bool, null_type, monostate. -/
inductive value_variant where
  | vstring (s : List Char)
  | vdouble (q : ℚ)
  | vint (n : ℤ)
  | vbool (b : Bool)
  | vnull
  | vmono
deriving DecidableEq, Repr

/-- class value (ljson.hpp:445): the scalar tagged union together with its
    value_type tag. -/
structure value where
  _value : value_variant := .vmono
  _type : value_type := .none
deriving DecidableEq, Repr

/-- std::stoll restricted to the digit strings reachable through the
    parser (is_num_decimal guarantees digits only in the integer branch);
    parsing stops at the first non-digit like std::stoll does. -/
def stoll_chars (s : List Char) : ℤ :=
  (s.takeWhile Char.isDigit).foldl (fun acc c => acc * 10 + (c.toNat - '0'.toNat)) (0 : ℤ)

/-- std::stod restricted to the digit-and-one-dot strings reachable through
    the parser: integer part plus decimal fraction, exactly as a rational.
    (Inputs that would make std::stod throw are unreachable in the verified
    scenarios and map to 0.) -/
def stod_chars (s : List Char) : ℚ :=
  let ip := s.takeWhile (· ≠ '.')
  let fpd := ((s.dropWhile (· ≠ '.')).drop 1).takeWhile Char.isDigit
  mkRat (stoll_chars ip * ((10 ^ fpd.length : ℕ) : ℤ) + stoll_chars fpd)
    (10 ^ fpd.length)

namespace value

/-- value::set_state(val, value_type) (ljson.hpp:494): parse a raw token
    string into the target kind; unknown/temp kinds reset the value and
    report wrong_type. -/
def set_state_str (v : value) (val : List Char) (t : value_type) :
    Except error value :=
  match t with
  | .double_t => .ok { v with _type := t, _value := .vdouble (stod_chars val) }
  | .number => .ok { v with _type := t, _value := .vdouble (stod_chars val) }
  | .integer => .ok { v with _type := t, _value := .vint (stoll_chars val) }
  | .string => .ok { v with _type := t, _value := .vstring val }
  | .boolean => .ok { v with _type := t, _value := .vbool (val = "true".toList) }
  | .null => .ok { v with _type := t, _value := .vnull }
  | .none => .ok { v with _type := t, _value := .vmono }
  | _ => .error ⟨.wrong_type, "unsupported value_type in class value"⟩

/-- value::type() (ljson.hpp:562). -/
def type (v : value) : value_type := v._type

/-- value::is_string (ljson.hpp:578): queries the active variant. -/
def is_string (v : value) : Bool :=
  match v._value with | .vstring _ => true | _ => false

/-- value::is_number (ljson.hpp:583). -/
def is_number (v : value) : Bool :=
  match v._value with | .vdouble _ => true | .vint _ => true | _ => false

/-- value::is_double (ljson.hpp:588). -/
def is_double (v : value) : Bool :=
  match v._value with | .vdouble _ => true | _ => false

/-- value::is_integer (ljson.hpp:593). -/
def is_integer (v : value) : Bool :=
  match v._value with | .vint _ => true | _ => false

/-- value::is_boolean (ljson.hpp:598). -/
def is_boolean (v : value) : Bool :=
  match v._value with | .vbool _ => true | _ => false

/-- value::is_null (ljson.hpp:603). -/
def is_null (v : value) : Bool :=
  match v._value with | .vnull => true | _ => false

/-- value::is_empty (ljson.hpp:608). -/
def is_empty (v : value) : Bool :=
  match v._value with | .vmono => true | _ => false

/-- std::to_string(int64_t): decimal rendering. -/
def int_to_chars (n : ℤ) : List Char :=
  if n < 0 then '-' :: Nat.toDigits 10 (-n).toNat else Nat.toDigits 10 n.toNat

/-- six fractional digits, zero padded on the left. -/
def padfrac6 (fp : ℕ) : List Char :=
  let ds := Nat.toDigits 10 fp
  List.replicate (6 - ds.length) '0' ++ ds

/-- the integer nearest to q times ten-to-the-sixth for nonnegative q,
    computed with natural-number arithmetic:
    floor(q * 1000000 + 1/2) = (num * 2000000 + den) / (2 * den). -/
def scaled6 (q : ℚ) : ℕ :=
  (q.num.toNat * 2000000 + q.den) / (2 * q.den)

/-- std::to_string(double): printf percent-f rendering with six fractional
    digits, modelled exactly on rationals (round to nearest). -/
def to_string_f6 (q : ℚ) : List Char :=
  if q < 0 then
    '-' :: (Nat.toDigits 10 (scaled6 (-q) / 1000000) ++
            '.' :: padfrac6 (scaled6 (-q) % 1000000))
  else
    Nat.toDigits 10 (scaled6 q / 1000000) ++ '.' :: padfrac6 (scaled6 q % 1000000)

/-- one iteration of the pop_zeros_at_the_end loop body inside
    value::stringify (ljson.hpp:736): either continue with a possibly
    shortened string and updated found_zero flag, or break. -/
def pz_iter (str : List Char) (found : Bool) (i : ℕ) :
    (List Char × Bool) ⊕ List Char :=
  let c := str.getD i '\x00'
  if c = '0' && !found then .inl (str, true)
  else if c = '0' && found then .inl (str.dropLast, found)
  else if found then .inl (str.dropLast, false)
  else .inr str

/-- the pop_zeros_at_the_end loop (ljson.hpp:739): index runs from
    size-1 down to 0, with `if (i == 0) break` after each iteration. -/
def pz_go (str : List Char) (found : Bool) : ℕ → List Char
  | 0 => (match pz_iter str found 0 with | .inl (s, _) => s | .inr s => s)
  | i + 1 =>
    match pz_iter str found (i + 1) with
    | .inl (s, f) => pz_go s f i
    | .inr s => s

/-- pop_zeros_at_the_end (ljson.hpp:736): trim trailing zeros, then append
    a '0' when the result ends in a bare '.'. -/
def pop_zeros_at_the_end (str : List Char) : List Char :=
  let r := if str.isEmpty then str else pz_go str false (str.length - 1)
  match r.getLast? with
  | some '.' => r ++ ['0']
  | _ => r

/-- value::stringify (ljson.hpp:730): literal text form of the scalar. -/
def stringify (v : value) : List Char :=
  match v._value with
  | .vdouble q => pop_zeros_at_the_end (to_string_f6 q)
  | .vint n => int_to_chars n
  | .vstring s => s
  | .vbool b => if b then "true".toList else "false".toList
  | .vnull => "null".toList
  | .vmono => []

/-- value::type_name (ljson.hpp:791). -/
def type_name (v : value) : String :=
  if v.is_string then "string"
  else if v.is_boolean then "boolean"
  else if v.is_null then "null"
  else if v.is_double then "double"
  else if v.is_integer then "integer"
  else if v.is_empty then "none"
  else "unknown"

/-- value::try_as_integer (ljson.hpp:636). -/
def try_as_integer (v : value) : Except error ℤ :=
  match v._value with
  | .vint n => .ok n
  | _ => .error ⟨.wrong_type, "wrong type: trying to cast the value to integer"⟩

/-- value::try_as_string (ljson.hpp:613). -/
def try_as_string (v : value) : Except error (List Char) :=
  match v._value with
  | .vstring s => .ok s
  | _ => .error ⟨.wrong_type, "wrong type: trying to cast the value to string"⟩

/-- value::try_as_boolean (ljson.hpp:656). -/
def try_as_boolean (v : value) : Except error Bool :=
  match v._value with
  | .vbool b => .ok b
  | _ => .error ⟨.wrong_type, "wrong type: trying to cast the value to boolean"⟩

/-- value::try_as_double (ljson.hpp:646). -/
def try_as_double (v : value) : Except error ℚ :=
  match v._value with
  | .vdouble q => .ok q
  | _ => .error ⟨.wrong_type, "wrong type: trying to cast the value to double"⟩

/-- value::try_as_number (ljson.hpp:623): doubles pass through, integers
    are widened to double. -/
def try_as_number (v : value) : Except error ℚ :=
  match v._value with
  | .vdouble q => .ok q
  | .vint n => .ok (n : ℚ)
  | _ => .error ⟨.wrong_type, "wrong type: trying to cast the value to number"⟩

/-- value::as_string (ljson.hpp:676): throwing wrapper of try_as_string. -/
def as_string (v : value) : Except error (List Char) := v.try_as_string

/-- value::as_number (ljson.hpp:685): throwing wrapper of try_as_number. -/
def as_number (v : value) : Except error ℚ := v.try_as_number

end value

end ljson

namespace ljson

/-- std::variant<shared_ptr<value>, shared_ptr<array>, shared_ptr<object>>
    (ljson.hpp:872): each shared_ptr is an address into the corresponding
    typed store of the explicit heap. -/
inductive json_node where
  | value_ptr (p : ℕ)
  | array_ptr (p : ℕ)
  | object_ptr (p : ℕ)
deriving DecidableEq, Repr

/-- class node (ljson.hpp:878): a handle holding the json_node variant. -/
structure node where
  _node : json_node
deriving DecidableEq, Repr

/-- lexicographic byte order of std::string, used by std::map. -/
def str_lt : List Char → List Char → Bool
  | [], [] => false
  | [], _ :: _ => true
  | _ :: _, [] => false
  | a :: as, b :: bs =>
    if a.toNat < b.toNat then true
    else if b.toNat < a.toNat then false
    else str_lt as bs

/-- json_object (ljson.hpp:870): std::map<std::string, node> modelled as an
    association list kept sorted by str_lt (std::map iterates in key
    order); insertion keeps the list sorted. -/
abbrev json_object := List (List Char × node)

/-- std::map operator[] followed by assignment (insert-or-assign), keeping
    the sorted iteration order of std::map. -/
def map_insert (m : json_object) (k : List Char) (v : node) : json_object :=
  match m with
  | [] => [(k, v)]
  | (k', v') :: rest =>
    if str_lt k k' then (k, v) :: (k', v') :: rest
    else if k = k' then (k, v) :: rest
    else (k', v') :: map_insert rest k v

/-- std::map::find. -/
def map_find (m : json_object) (k : List Char) : Option node :=
  match m with
  | [] => Option.none
  | (k', v') :: rest => if k = k' then some v' else map_find rest k

/-- whether std::map contains a key. -/
def map_contains (m : json_object) (k : List Char) : Bool :=
  (map_find m k).isSome

/-- the process heap made explicit: one store per shared_ptr payload type.
    make_shared appends a cell; a node's address indexes its store. -/
structure heap where
  values : List value := []
  arrays : List (List node) := []
  objects : List json_object := []
deriving DecidableEq, Repr

/-- std::make_shared<class value>. -/
def heap.alloc_value (h : heap) (v : value) : node × heap :=
  (⟨.value_ptr h.values.length⟩, { h with values := h.values ++ [v] })

/-- std::make_shared<ljson::array>. -/
def heap.alloc_array (h : heap) (l : List node) : node × heap :=
  (⟨.array_ptr h.arrays.length⟩, { h with arrays := h.arrays ++ [l] })

/-- std::make_shared<ljson::object>. -/
def heap.alloc_object (h : heap) (m : json_object) : node × heap :=
  (⟨.object_ptr h.objects.length⟩, { h with objects := h.objects ++ [m] })

/-- writing through a shared_ptr<object>. -/
def heap.write_object (h : heap) (p : ℕ) (m : json_object) : heap :=
  { h with objects := h.objects.set p m }

/-- writing through a shared_ptr<array>. -/
def heap.write_array (h : heap) (p : ℕ) (l : List node) : heap :=
  { h with arrays := h.arrays.set p l }

namespace node

/-- node::node() (ljson.hpp:2078): default-constructed nodes allocate an
    empty object. -/
def mk_default (h : heap) : node × heap := h.alloc_object []

/-- node::node(node_type) (ljson.hpp:2082). -/
def mk_of_type (t : node_type) (h : heap) : node × heap :=
  match t with
  | .value => h.alloc_value {}
  | .array => h.alloc_array []
  | .object => h.alloc_object []

/-- node::is_value (ljson.hpp:2476): holds_alternative on the variant. -/
def is_value (n : node) : Bool :=
  match n._node with | .value_ptr _ => true | _ => false

/-- node::is_array (ljson.hpp:2484). -/
def is_array (n : node) : Bool :=
  match n._node with | .array_ptr _ => true | _ => false

/-- node::is_object (ljson.hpp:2492). -/
def is_object (n : node) : Bool :=
  match n._node with | .object_ptr _ => true | _ => false

/-- node::type (ljson.hpp:2530). -/
def type (n : node) : node_type :=
  if n.is_value then .value
  else if n.is_array then .array
  else .object

/-- node::type_name (ljson.hpp:2540). -/
def type_name (n : node) : String :=
  if n.is_value then "node value"
  else if n.is_array then "node array"
  else "node object"

/-- node::try_as_value (ljson.hpp:2422): the shared_ptr<value>, i.e. the
    address into the value store, or a wrong_type error. -/
def try_as_value (n : node) : Except error ℕ :=
  match n._node with
  | .value_ptr p => .ok p
  | _ => .error ⟨.wrong_type, "wrong type: trying to cast a node to a value"⟩

/-- node::try_as_array (ljson.hpp:2431). -/
def try_as_array (n : node) : Except error ℕ :=
  match n._node with
  | .array_ptr p => .ok p
  | _ => .error ⟨.wrong_type, "wrong type: trying to cast a node to an array"⟩

/-- node::try_as_object (ljson.hpp:2440). -/
def try_as_object (n : node) : Except error ℕ :=
  match n._node with
  | .object_ptr p => .ok p
  | _ => .error ⟨.wrong_type, "wrong type: trying to cast a node to an object"⟩

/-- node::as_value (ljson.hpp:2449): rethrows the try_as_value error;
    Except.error is the model of a thrown ljson::error. -/
def as_value (n : node) : Except error ℕ := n.try_as_value

/-- node::as_array (ljson.hpp:2458). -/
def as_array (n : node) : Except error ℕ := n.try_as_array

/-- node::as_object (ljson.hpp:2467). -/
def as_object (n : node) : Except error ℕ := n.try_as_object

/-- dereference a shared_ptr<value>; dangling pointers are unreachable for
    heaps built through the API and map to an error_type.none error. -/
def read_value (h : heap) (p : ℕ) : Except error value :=
  match h.values.get? p with
  | some v => .ok v
  | _ => .error ⟨.none, "dangling value pointer"⟩

/-- dereference a shared_ptr<array>. -/
def read_array (h : heap) (p : ℕ) : Except error (List node) :=
  match h.arrays.get? p with
  | some l => .ok l
  | _ => .error ⟨.none, "dangling array pointer"⟩

/-- dereference a shared_ptr<object>. -/
def read_object (h : heap) (p : ℕ) : Except error json_object :=
  match h.objects.get? p with
  | some m => .ok m
  | _ => .error ⟨.none, "dangling object pointer"⟩

/-- node::access_value composed with the value-level casts: model of
    node::try_as_integer (ljson.hpp:2568). -/
def try_as_integer (n : node) (h : heap) : Except error ℤ := do
  let p ← n.try_as_value
  let v ← read_value h p
  v.try_as_integer

/-- node::try_as_string (ljson.hpp:2562). -/
def try_as_string (n : node) (h : heap) : Except error (List Char) := do
  let p ← n.try_as_value
  let v ← read_value h p
  v.try_as_string

/-- node::try_as_boolean (ljson.hpp:2586). -/
def try_as_boolean (n : node) (h : heap) : Except error Bool := do
  let p ← n.try_as_value
  let v ← read_value h p
  v.try_as_boolean

/-- node::try_as_double (ljson.hpp:2574). -/
def try_as_double (n : node) (h : heap) : Except error ℚ := do
  let p ← n.try_as_value
  let v ← read_value h p
  v.try_as_double

/-- node::valuetype (ljson.hpp:2646). -/
def valuetype (n : node) (h : heap) : value_type :=
  match n._node with
  | .value_ptr p => (match h.values.get? p with | some v => v._type | _ => .none)
  | _ => .none

/-- node::contains (ljson.hpp:2668): false on type mismatch or missing
    key. -/
def contains (n : node) (k : List Char) (h : heap) : Bool :=
  match n._node with
  | .object_ptr p =>
    (match h.objects.get? p with
     | some m => map_contains m k
     | _ => false)
  | _ => false

/-- node::at(const std::string&) (ljson.hpp:2681): as_object, find, throw
    key_not_found when absent; the returned node& is modelled by the entry
    value (reads) — see at_set for mutation through the reference. -/
def at_key (n : node) (k : List Char) (h : heap) : Except error node := do
  let p ← n.as_object
  let m ← read_object h p
  match map_find m k with
  | some nd => .ok nd
  | _ => .error ⟨.key_not_found, "key not found"⟩

/-- node::at(const size_t) (ljson.hpp:2690): as_array, then an
    out-of-range index throws an error of kind key_not_found (the source
    does not use wronge_index here). -/
def at_idx (n : node) (i : ℕ) (h : heap) : Except error node := do
  let p ← n.as_array
  let l ← read_array h p
  if i ≥ l.length then .error ⟨.key_not_found, "index not found"⟩
  else .ok (l.getD i ⟨.object_ptr 0⟩)

end node

/-- the closed set of template arguments accepted by node::set / insert /
    push_back (is_allowed_node_type, ljson.hpp:816); the std container
    overloads are not needed by any verified claim and are omitted. -/
inductive node_arg where
  | astring (s : List Char)
  | aint (n : ℤ)
  | adouble (q : ℚ)
  | abool (b : Bool)
  | anull
  | avalue (v : value)
  | anode (n : node)
deriving DecidableEq, Repr

/-- node::handle_allowed_node_types (ljson.hpp:2105): scalars become a
    class value, an existing node passes through. -/
def handle_allowed_node_types (a : node_arg) : value ⊕ node :=
  match a with
  | .astring s => .inl { _value := .vstring s, _type := .string }
  | .aint n => .inl { _value := .vint n, _type := .integer }
  | .adouble q => .inl { _value := .vdouble q, _type := .double_t }
  | .abool b => .inl { _value := .vbool b, _type := .boolean }
  | .anull => .inl { _value := .vnull, _type := .null }
  | .avalue v => .inl v
  | .anode n => .inr n

/-- node::setting_allowed_node_type (ljson.hpp:2183 branch): compute the
    new _node for the handle — a fresh shared_ptr<value> cell for scalar
    arguments, the other node's shared pointers for a node argument. -/
def node_of_arg (a : node_arg) (h : heap) : node × heap :=
  match handle_allowed_node_types a with
  | .inl v => h.alloc_value v
  | .inr n => (n, h)

namespace node

/-- node::set (ljson.hpp:2831): rebinds this handle's _node.  Called on a
    copied handle, only the copy is rebound — the function returns the
    rebound handle; the heap cell the old pointer shared with the parent is
    untouched. -/
def set (_n : node) (a : node_arg) (h : heap) : node × heap :=
  node_of_arg a h

/-- node::set executed on the node& returned by node::at(key): the
    assignment `_node = ...` lands in the entry stored inside the parent
    object's cell, so the parent map is updated in place.  Same body as
    setting_allowed_node_type; only the location receiving _node differs. -/
def at_set (n : node) (k : List Char) (a : node_arg) (h : heap) :
    Except error heap := do
  let p ← n.as_object
  let m ← read_object h p
  match map_find m k with
  | some _ =>
    let (nd, h') := node_of_arg a h
    .ok (h'.write_object p (map_insert m k nd))
  | _ => .error ⟨.key_not_found, "key not found"⟩

/-- node::add_node_to_key (ljson.hpp:2365): wrong_type unless this is an
    object; object::insert (ljson.hpp:1259) is map operator[] assignment
    and returns the inserted handle. -/
def add_node_to_key (n : node) (k : List Char) (nd : node) (h : heap) :
    Except error (node × heap) :=
  match n._node with
  | .object_ptr p => do
    let m ← read_object h p
    .ok (nd, h.write_object p (map_insert m k nd))
  | _ => .error ⟨.wrong_type, "wrong type: trying to add node to an object node"⟩

/-- node::add_node_to_array (ljson.hpp:2330): wrong_type unless this is an
    array; push_back then return arr->back(). -/
def add_node_to_array (n : node) (nd : node) (h : heap) :
    Except error (node × heap) :=
  match n._node with
  | .array_ptr p => do
    let l ← read_array h p
    .ok (nd, h.write_array p (l ++ [nd]))
  | _ => .error ⟨.wrong_type, "wrong type: trying to add node to an array node"⟩

/-- node::insert (ljson.hpp:2375): build a node from the argument, then
    add_node_to_key. -/
def insert (n : node) (k : List Char) (a : node_arg) (h : heap) :
    Except error (node × heap) :=
  let (nd, h') := node_of_arg a h
  n.add_node_to_key k nd h'

/-- node::push_back (ljson.hpp:2382). -/
def push_back (n : node) (a : node_arg) (h : heap) :
    Except error (node × heap) :=
  let (nd, h') := node_of_arg a h
  n.add_node_to_array nd h'

/-- node::add_array_to_key (ljson.hpp:2311): insert a fresh empty array
    node under the key. -/
def add_array_to_key (n : node) (k : List Char) (h : heap) :
    Except error (node × heap) :=
  if !n.is_object then
    .error ⟨.wrong_type, "wrong type: trying to add array to an object node"⟩
  else
    let (nd, h') := h.alloc_array []
    n.add_node_to_key k nd h'

/-- node::add_object_to_key (ljson.hpp:2356). -/
def add_object_to_key (n : node) (k : List Char) (h : heap) :
    Except error (node × heap) :=
  if !n.is_object then
    .error ⟨.wrong_type, "wrong type: trying to add object to an object node"⟩
  else
    let (nd, h') := h.alloc_object []
    n.add_node_to_key k nd h'

/-- node::add_object_to_array (ljson.hpp:2320). -/
def add_object_to_array (n : node) (h : heap) : Except error (node × heap) :=
  if !n.is_array then
    .error ⟨.wrong_type, "wrong type: trying to add object to an array node"⟩
  else
    let (nd, h') := h.alloc_object []
    n.add_node_to_array nd h'

end node

end ljson

namespace ljson

/-- the discarded-result add_node_to_key calls inside operator+
    (ljson.hpp:2785): the expected return value is ignored; on error the
    heap is unchanged. -/
def add_key_ignore (n : node) (k : List Char) (nd : node) (h : heap) : heap :=
  match n.add_node_to_key k nd h with
  | .ok (_, h') => h'
  | .error _ => h

/-- the loop `for ([key, node] : *map) new_node.add_node_to_key(key, node)`
    of operator+ (ljson.hpp:2783). -/
def fold_add_keys (n : node) (m : json_object) (h : heap) : heap :=
  m.foldl (fun hh kv => add_key_ignore n kv.1 kv.2 hh) h

/-- the discarded-result add_node_to_array calls inside operator+
    (ljson.hpp:2799). -/
def add_arr_ignore (n : node) (nd : node) (h : heap) : heap :=
  match n.add_node_to_array nd h with
  | .ok (_, h') => h'
  | .error _ => h

/-- the loop `for (node : *vector) new_node.add_node_to_array(node)` of
    operator+ (ljson.hpp:2797). -/
def fold_add_arr (n : node) (l : List node) (h : heap) : heap :=
  l.foldl (fun hh nd => add_arr_ignore n nd hh) h

/-- node::operator+ (ljson.hpp:2775): wrong_type on different top-level
    kinds; object union (second loop overwrites on key collision through
    map operator[]); array concatenation; scalar string concatenation or
    numeric addition, wrong_type otherwise. -/
def op_plus (n1 n2 : node) (h : heap) : Except error (node × heap) :=
  if n1.type ≠ n2.type then
    .error ⟨.wrong_type, "trying to + two nodes with different types"⟩
  else if n1.is_object then do
    let (nn, h0) := node.mk_of_type .object h
    let p1 ← n1.as_object
    let m1 ← node.read_object h0 p1
    let h1 := fold_add_keys nn m1 h0
    let p2 ← n2.as_object
    let m2 ← node.read_object h1 p2
    let h2 := fold_add_keys nn m2 h1
    .ok (nn, h2)
  else if n1.is_array then do
    let (nn, h0) := node.mk_of_type .array h
    let p1 ← n1.as_array
    let l1 ← node.read_array h0 p1
    let h1 := fold_add_arr nn l1 h0
    let p2 ← n2.as_array
    let l2 ← node.read_array h1 p2
    let h2 := fold_add_arr nn l2 h1
    .ok (nn, h2)
  else do
    let (_, h0) := node.mk_of_type n1.type h
    let p1 ← n1.as_value
    let v1 ← node.read_value h0 p1
    if v1.type = .string then do
      let s1 ← v1.as_string
      let p2 ← n2.as_value
      let v2 ← node.read_value h0 p2
      let s2 ← v2.as_string
      .ok (node_of_arg (.astring (s1 ++ s2)) h0)
    else if v1.type = .double_t ∨ v1.type = .integer then do
      let q1 ← v1.as_number
      let p2 ← n2.as_value
      let v2 ← node.read_value h0 p2
      let q2 ← v2.as_number
      .ok (node_of_arg (.adouble (q1 + q2)) h0)
    else
      .error ⟨.wrong_type,
        "trying to + two nodes with values that are neither a number nor string"⟩

/-- node::dump (ljson.hpp:2837), with the out_func sink modelled as list
    concatenation; the fuel bounds the pointer-chasing recursion depth and
    is chosen larger than any cell count, so it is never exhausted on the
    acyclic heaps produced by the API. -/
def dump_fuel : ℕ → node → heap → Char → ℕ → ℕ → List Char
  | 0, _, _, _, _, _ => []
  | f + 1, n, h, ic, iw, indent =>
    let dv : node → List Char := fun nd =>
      match nd._node with
      | .value_ptr p =>
        let v := h.values.getD p {}
        if v.type = .string then '"' :: (v.stringify ++ ['"']) else v.stringify
      | _ => dump_fuel f nd h ic iw (indent + iw)
    match n._node with
    | .object_ptr p =>
      let m := h.objects.getD p []
      let total := m.length
      '\x7b' :: '\n' ::
        ((m.enum.map (fun ikv =>
          List.replicate (indent + iw) ic ++ '"' :: ikv.2.1
            ++ '"' :: ':' :: ' ' :: dv ikv.2.2
            ++ (if ikv.1 + 1 ≠ total then [','] else []) ++ ['\n'])).flatten
        ++ List.replicate indent ic ++ ['\x7d'])
    | .array_ptr p =>
      let l := h.arrays.getD p []
      let total := l.length
      '[' :: '\n' ::
        ((l.enum.map (fun ind =>
          List.replicate (indent + iw) ic ++ dv ind.2
            ++ (if ind.1 + 1 ≠ total then [','] else []) ++ ['\n'])).flatten
        ++ List.replicate indent ic ++ [']'])
    | .value_ptr _ => dv n

/-- node::dump_to_string (ljson.hpp:2906) with the default indent
    configuration of four spaces. -/
def dump_to_string (n : node) (h : heap) : List Char :=
  dump_fuel (h.values.length + h.arrays.length + h.objects.length + 1) n h ' ' 4 0

end ljson

namespace ljson

/-- struct parsing_data (ljson.hpp:1336): per-parse state; all stacks are
    lists with the top at the head. -/
structure parsing_data where
  line : List Char := []
  i : ℕ := 0
  line_number : ℕ := 1
  keys : List (List Char × key_type) := []
  json_objs : List node := []
  raw_value : List Char × value_type := ([], .none)
  value : value := {}
  hierarchy : List (json_syn × ℕ) := []
deriving DecidableEq, Repr

/-- parser state: the parsing_data together with the explicit heap (the
    C++ process memory the shared_ptr handles point into). -/
structure pstate where
  h : heap
  d : parsing_data
deriving DecidableEq, Repr

/-- data.line[data.i]; std::string operator[] at index size() yields the
    null character. -/
def line_char (d : parsing_data) : Char := d.line.getD d.i '\x00'

/-- data.hierarchy.top(); reading the top of an empty std::stack is
    undefined behaviour in C++ and unreachable in every verified scenario;
    the model returns an arbitrary fixed default. -/
def hier_top (d : parsing_data) : json_syn × ℕ :=
  d.hierarchy.headD (.closing_bracket, 0)

/-- data.keys.top(), same convention as hier_top. -/
def keys_top (d : parsing_data) : List Char × key_type :=
  d.keys.headD ([], .none)

/-- data.json_objs.top(), same convention as hier_top. -/
def objs_top (d : parsing_data) : node := d.json_objs.headD ⟨.object_ptr 0⟩

/-- in-place mutation of data.keys.top(); a no-op on an empty stack
    (unreachable undefined behaviour in C++). -/
def keys_top_set (d : parsing_data) (f : List Char × key_type → List Char × key_type) :
    parsing_data :=
  { d with keys := match d.keys with | [] => [] | x :: xs => f x :: xs }

/-- parser_syntax::value::is_string (ljson.hpp:1748): top of the hierarchy
    is string_value. -/
def value_is_string (d : parsing_data) : Bool :=
  match d.hierarchy.head? with
  | some (s, _) => s == .string_value
  | _ => false

/-- parser_syntax::quotes::is_hierarchy_qoutes (ljson.hpp:1453). -/
def is_hierarchy_qoutes (d : parsing_data) : Bool :=
  match d.hierarchy.head? with
  | some (s, _) => s == .quotes_1
  | _ => false

/-- parser_syntax::array::is_array (ljson.hpp:1508): the current container
    is an array node. -/
def array_is_array (d : parsing_data) : Bool :=
  !d.json_objs.isEmpty && (objs_top d).type == .array

/-- parser_syntax::object::is_object (ljson.hpp:1629): more than one open
    container and the current one is an object node. -/
def object_is_object (d : parsing_data) : Bool :=
  if d.json_objs.isEmpty || d.json_objs.length == 1 then false
  else (objs_top d).type == .object

/-- parser_syntax::object::is_object_char (ljson.hpp:1638). -/
def is_object_char (c : Char) : Bool := c == '\x7b' || c == '\x7d'

/-- parser_syntax::array::is_array_char (ljson.hpp:1515). -/
def is_array_char (c : Char) : Bool := c == '[' || c == ']'

/-- parser_syntax::object::brackets_at_end_of_line (ljson.hpp:1645);
    `data.i == data.line.size() - 1` over size_t is `i + 1 == size` for
    every reachable index. -/
def object_brackets_at_end (d : parsing_data) : Bool :=
  d.i + 1 == d.line.length && (line_char d == '\x7b' || line_char d == '\x7d')

/-- parser_syntax::array::brackets_at_end_of_line (ljson.hpp:1522). -/
def array_brackets_at_end (d : parsing_data) : Bool :=
  d.i + 1 == d.line.length && (line_char d == '[' || line_char d == ']')

/-- parser_syntax::end_statement::next_char_is_newline (ljson.hpp:1773). -/
def next_char_is_newline (d : parsing_data) : Bool :=
  d.i + 2 == d.line.length && d.line.getD (d.i + 1) '\x00' == '\n'

/-- parser_syntax::end_statement::end_of_line_after_bracket (ljson.hpp:1781). -/
def end_of_line_after_bracket (d : parsing_data) : Bool :=
  if d.hierarchy.isEmpty then false
  else (hier_top d).1 == .column && d.i + 1 == d.line.length

/-- parser_syntax::end_statement::is_end_statement (ljson.hpp:1920). -/
def is_end_statement (d : parsing_data) : Bool :=
  if line_char d == ',' && !value_is_string d then true
  else if d.i + 1 == d.line.length && !object_brackets_at_end d
          && !array_brackets_at_end d && !value_is_string d then true
  else if !d.hierarchy.isEmpty && (hier_top d).1 == .flush_value then true
  else if line_char d == '\x7d' && !d.raw_value.1.isEmpty then true
  else false

/-- parser_syntax::end_statement::there_is_a_value (ljson.hpp:1940). -/
def there_is_a_value (d : parsing_data) : Bool :=
  if d.hierarchy.isEmpty then false
  else if (hier_top d).1 == .column then true
  else if (hier_top d).1 == .flush_value then true
  else if array_is_array d then true
  else false

/-- parser_syntax::end_statement::pop_flush_element (ljson.hpp:1797). -/
def pop_flush_element (d : parsing_data) : Bool :=
  !d.hierarchy.isEmpty && (hier_top d).1 == .flush_value

/-- the loop of empty_space_in_number (ljson.hpp:1807); the index is the
    by-reference alias of data.i and is returned updated.  The fuel is one
    more than the characters left, so it is never exhausted. -/
def esin_go (line : List Char) : ℕ → ℕ → Bool → Bool × ℕ
  | 0, j, _ => (false, j)
  | fuel + 1, j, found =>
    if j < line.length then
      let c := line.getD j '\x00'
      if c == ' ' || c == '\t' then esin_go line fuel (j + 1) true
      else if c == ',' || c == '\n' then (false, j)
      else if found then (true, j)
      else esin_go line fuel (j + 1) found
    else (false, j)

/-- parser_syntax::end_statement::empty_space_in_number (ljson.hpp:1807):
    scans forward from data.i; whitespace followed by a further non-space,
    non-delimiter character flags an embedded space in a number. -/
def empty_space_in_number (d : parsing_data) : Bool × parsing_data :=
  let r := esin_go d.line (d.line.length + 1) d.i false
  (r.1, { d with i := r.2 })

/-- parser_syntax::end_statement::fill_object_data (ljson.hpp:1954). -/
def fill_object_data (st : pstate) : Except error pstate :=
  if (keys_top st.d).2 == .simple_key then
    match (objs_top st.d).insert (keys_top st.d).1 (.avalue st.d.value) st.h with
    | .ok (_, h') => .ok { st with h := h' }
    | .error _ => .error ⟨.parsing_error, "internal parsing error adding value to object"⟩
  else .ok st

/-- parser_syntax::end_statement::fill_array_data (ljson.hpp:1969). -/
def fill_array_data (st : pstate) : Except error pstate :=
  match (objs_top st.d).push_back (.avalue st.d.value) st.h with
  | .ok (_, h') => .ok { st with h := h' }
  | .error _ => .error ⟨.parsing_error, "internal parsing error adding value to array"⟩

/-- parser_syntax::end_statement::handle_end_statement (ljson.hpp:1831):
    token classification (null / boolean / numeric with integer-vs-float
    split and embedded-space rejection / string / unknown), value
    finalization and attachment to the current container. -/
def handle_end_statement (st : pstate) : Except error (Bool × pstate) :=
  if !is_end_statement st.d then .ok (false, st)
  else if !there_is_a_value st.d then .ok (false, st)
  else
    let d := st.d
    let d := if next_char_is_newline d then { d with line := d.line.dropLast } else d
    let d := if pop_flush_element d then { d with hierarchy := d.hierarchy.tail } else d
    let classified : Except error (Option parsing_data) :=
      if d.raw_value.1 == "null".toList then
        .ok (some { d with raw_value := (d.raw_value.1, .null) })
      else if d.raw_value.1 == "true".toList || d.raw_value.1 == "false".toList then
        .ok (some { d with raw_value := (d.raw_value.1, .boolean) })
      else if is_num_decimal d.raw_value.1 then
        let d := { d with raw_value :=
          (d.raw_value.1, if d.raw_value.1.contains '.' then .double_t else .integer) }
        let r := empty_space_in_number d
        if r.1 then .error ⟨.parsing_error_wrong_type, "type error"⟩
        else .ok (some r.2)
      else if d.raw_value.2 == .none && d.raw_value.1.isEmpty then
        .ok Option.none
      else if d.raw_value.2 != .string then
        .error ⟨.parsing_error_wrong_type, "unknown type"⟩
      else .ok (some d)
    match classified with
    | .error e => .error e
    | .ok Option.none => .ok (true, { st with d := d })
    | .ok (some d) =>
      match d.value.set_state_str d.raw_value.1 d.raw_value.2 with
      | .error e => .error e
      | .ok v' =>
        let d := { d with value := v', raw_value := ([], .none) }
        let st := { st with d := d }
        let attach : Except error pstate :=
          if (keys_top d).2 == .simple_key then
            match (objs_top d).insert (keys_top d).1 (.avalue d.value) st.h with
            | .ok (_, h') => .ok { st with h := h' }
            | .error _ =>
              .error ⟨.parsing_error, "internal parsing error adding value to simple key"⟩
          else if object_is_object d then fill_object_data st
          else if array_is_array d then fill_array_data st
          else .ok st
        match attach with
        | .error e => .error e
        | .ok st' =>
          if !(keys_top d).2 == .simple_key && !object_is_object d && array_is_array d then
            .ok (true, st')
          else
            let d' := keys_top_set st'.d (fun _ => ([], .none))
            .ok (true, { st' with d := { d' with hierarchy := d'.hierarchy.tail } })

/-- parser_syntax::end_statement::flush_value (ljson.hpp:1791): push a
    flush_value frame and run handle_end_statement. -/
def flush_value_fn (st : pstate) : Except error (Bool × pstate) :=
  handle_end_statement
    { st with d := { st.d with
        hierarchy := (.flush_value, st.d.line_number) :: st.d.hierarchy } }

/-- parser_syntax::end_statement::run_till_end_of_statement (ljson.hpp:1981). -/
def run_till_end_of_statement (d : parsing_data) : Bool × parsing_data :=
  if d.hierarchy.isEmpty then (false, d)
  else if (hier_top d).1 != .maybe_empty_space_after then (false, d)
  else if line_char d == ',' || line_char d == '\n' then
    let d := { d with hierarchy := d.hierarchy.tail }
    let d := if !d.hierarchy.isEmpty && (hier_top d).1 == .column then
        { d with hierarchy := d.hierarchy.tail } else d
    let d := if !d.keys.isEmpty then keys_top_set d (fun _ => ([], .none)) else d
    (true, d)
  else (false, d)

/-- parser_syntax::open_bracket::handle_open_bracket (ljson.hpp:1349). -/
def handle_open_bracket (st : pstate) : Except error (Bool × pstate) :=
  if line_char st.d == '\x7b' && !value_is_string st.d then
    .ok (true, { st with d := { st.d with
      hierarchy := (.opening_bracket, st.d.line_number) :: st.d.hierarchy } })
  else .ok (false, st)

/-- parser_syntax::empty::handle_empty (ljson.hpp:1362): whitespace is
    skipped, except inside quotes/strings or right after a buffered
    non-string scalar, where it forces a flush; a flush failing with
    parsing_error_wrong_type is rewrapped as parsing_error. -/
def handle_empty (st : pstate) : Except error (Bool × pstate) :=
  let d := st.d
  if line_char d != ' ' && line_char d != '\t' then .ok (false, st)
  else if d.hierarchy.isEmpty then .ok (true, st)
  else if is_hierarchy_qoutes d then .ok (false, st)
  else if (hier_top d).1 == .string_value then .ok (false, st)
  else if d.raw_value.2 != .none && d.raw_value.2 != .unknown then .ok (false, st)
  else if d.raw_value.2 != .string && !d.raw_value.1.isEmpty then
    match flush_value_fn st with
    | .error e =>
      if e.err_type == .parsing_error_wrong_type then
        .error ⟨.parsing_error, "reached an empty-space on non-string unknown type"⟩
      else .error e
    | .ok r => .ok r
  else .ok (true, st)

/-- parser_syntax::key::handle_key (ljson.hpp:1392): inside a quoted span
    that is not an array element, append to the partial key. -/
def handle_key (st : pstate) : Except error (Bool × pstate) :=
  if is_hierarchy_qoutes st.d && !array_is_array st.d then
    .ok (true, { st with
      d := keys_top_set st.d (fun kv => (kv.1 ++ [line_char st.d], kv.2)) })
  else .ok (false, st)

/-- parser_syntax::quotes::quote (ljson.hpp:1445). -/
def quotes_quote (d : parsing_data) : Bool :=
  line_char d == '"' && d.raw_value.2 != .temp_escape_type

/-- parser_syntax::quotes::handle_quotes (ljson.hpp:1405): toggling of
    quoted spans; a closing quote of a string value flushes immediately. -/
def handle_quotes (st : pstate) : Except error (Bool × pstate) :=
  let d := st.d
  if quotes_quote d then
    if (hier_top d).1 == .quotes_1 then
      let d := if !d.keys.isEmpty && (keys_top d).1.isEmpty then
          keys_top_set d (fun kv => (kv.1, .simple_key)) else d
      .ok (true, { st with d := { d with hierarchy := d.hierarchy.tail } })
    else
      -- found_qoute = true
      if !d.hierarchy.isEmpty &&
          ((hier_top d).1 == .column || (hier_top d).1 == .array) then
        .ok (true, { st with d := { d with
          hierarchy := (.string_value, d.line_number) :: d.hierarchy,
          raw_value := (d.raw_value.1, .string) } })
      else if !d.hierarchy.isEmpty && (hier_top d).1 == .string_value then
        flush_value_fn { st with d := { d with hierarchy := d.hierarchy.tail } }
      else
        .ok (true, { st with d := { d with
          hierarchy := (.quotes_1, d.line_number) :: d.hierarchy } })
  else .ok (false, st)

/-- parser_syntax::column::column_in_quotes (ljson.hpp:1553). -/
def column_in_quotes (d : parsing_data) : Bool :=
  match d.hierarchy.head? with
  | some (s, _) => s == .quotes_1 || s == .string_value
  | _ => false

/-- parser_syntax::column::two_consecutive_columns (ljson.hpp:1563). -/
def two_consecutive_columns (d : parsing_data) : Bool :=
  !d.hierarchy.isEmpty && (hier_top d).1 == .column

/-- parser_syntax::column::handle_column (ljson.hpp:1532). -/
def handle_column (st : pstate) : Except error (Bool × pstate) :=
  let d := st.d
  if line_char d != ':' then .ok (false, st)
  else if column_in_quotes d then .ok (false, st)
  else if two_consecutive_columns d then
    .error ⟨.parsing_error, "two consecutive columns"⟩
  else
    .ok (true, { st with d := { d with
      hierarchy := (.column, d.line_number) :: d.hierarchy } })

/-- parser_syntax::escape::is_next_char_correct (ljson.hpp:1681): the set
    of recognized escape characters. -/
def is_next_char_correct (c : Char) : Bool :=
  c == '"' || c == '\\' || c == 't' || c == 'b' || c == 'f'
    || c == 'n' || c == 'r' || c == 'u' || c == '/'

/-- parser_syntax::escape::is_escape_char (ljson.hpp:1671). -/
def is_escape_char (d : parsing_data) : Bool :=
  d.raw_value.2 == .string && line_char d == '\\'

/-- parser_syntax::escape::handle_escape_char (ljson.hpp:1655): with a
    pending escape, any character outside the recognized set is a
    parsing_error. -/
def handle_escape_char (d : parsing_data) : Except error Bool :=
  if d.raw_value.2 != .temp_escape_type then .ok false
  else if !is_next_char_correct (line_char d) then
    .error ⟨.parsing_error, "escape sequence is incorrect"⟩
  else .ok true

/-- parser_syntax::value::empty_value_in_non_string (ljson.hpp:1737). -/
def empty_value_in_non_string (d : parsing_data) : Bool :=
  if d.raw_value.1.isEmpty then false
  else if d.raw_value.2 != .string &&
      (d.raw_value.1.getLast? == some ' ' || d.raw_value.1.getLast? == some '\t') then true
  else false

/-- parser_syntax::value::is_not_value (ljson.hpp:1758). -/
def is_not_value (d : parsing_data) : Bool :=
  if !d.json_objs.isEmpty && (objs_top d).type == .array then false
  else if (hier_top d).1 != .column && (hier_top d).1 != .string_value then true
  else false

/-- parser_syntax::value::handle_value (ljson.hpp:1693): scalar-token
    accumulation, escape recognition, and the implicit flush after a space
    that ended a non-string token. -/
def handle_value (st : pstate) : Except error (Bool × pstate) :=
  let d := st.d
  if d.hierarchy.isEmpty then .ok (false, st)
  else if is_not_value d then .ok (false, st)
  else if is_object_char (line_char d) && !value_is_string d then .ok (false, st)
  else if is_array_char (line_char d) && !value_is_string d then .ok (false, st)
  else if is_end_statement d then .ok (false, st)
  else if empty_value_in_non_string d then flush_value_fn st
  else
    let d := if !array_is_array d then keys_top_set d (fun kv => (kv.1, .simple_key)) else d
    let escaped : Except error parsing_data :=
      if is_escape_char d then
        .ok { d with raw_value := (d.raw_value.1, .temp_escape_type) }
      else
        match handle_escape_char d with
        | .error e => .error e
        | .ok true => .ok { d with raw_value := (d.raw_value.1, .string) }
        | .ok false =>
          if (hier_top d).1 == .string_value then
            .ok { d with raw_value := (d.raw_value.1, .string) }
          else .ok d
    match escaped with
    | .error e => .error e
    | .ok d =>
      .ok (true, { st with d := { d with
        raw_value := (d.raw_value.1 ++ [line_char d], d.raw_value.2) } })

/-- parser_syntax::object::handle_object (ljson.hpp:1572): object open
    allocates a child object (as array element or under the current key);
    object close pops context, key frame and container. -/
def handle_object (st : pstate) : Except error (Bool × pstate) :=
  let d := st.d
  if d.hierarchy.isEmpty || is_end_statement d || value_is_string d then .ok (false, st)
  else if line_char d == '\x7b' then
    let child : Except error (node × heap) :=
      if array_is_array d then (objs_top d).add_object_to_array st.h
      else (objs_top d).add_object_to_key (keys_top d).1 st.h
    match child with
    | .error e => .error e
    | .ok (nd, h') =>
      .ok (true, { h := h', d := { d with
        json_objs := nd :: d.json_objs,
        keys := ([], .simple_key) :: d.keys,
        hierarchy := (.object, d.line_number) :: d.hierarchy } })
  else if object_is_object d && line_char d == '\x7d' then
    let d := { d with hierarchy := d.hierarchy.tail, keys := d.keys.tail }
    let d := if end_of_line_after_bracket d then { d with hierarchy := d.hierarchy.tail } else d
    let d := if !d.json_objs.isEmpty then { d with json_objs := d.json_objs.tail } else d
    let d := if !d.keys.isEmpty then keys_top_set d (fun kv => (kv.1, .none)) else d
    .ok (true, { st with d := { d with
      hierarchy := (.maybe_empty_space_after, d.line_number) :: d.hierarchy } })
  else if array_is_array d && line_char d == '\x7d' then
    let d := { d with hierarchy := d.hierarchy.tail, keys := d.keys.tail }
    let d := if !d.json_objs.isEmpty then { d with json_objs := d.json_objs.tail } else d
    .ok (true, { st with d := { d with
      hierarchy := (.maybe_empty_space_after, d.line_number) :: d.hierarchy } })
  else .ok (false, st)

/-- parser_syntax::array::handle_array (ljson.hpp:1473): array open under
    the current key; array close pops context and container. -/
def handle_array (st : pstate) : Except error (Bool × pstate) :=
  let d := st.d
  if d.hierarchy.isEmpty || is_end_statement d || value_is_string d then .ok (false, st)
  else if line_char d == '[' then
    let d := { d with hierarchy := (.array, d.line_number) :: d.hierarchy }
    let d := keys_top_set d (fun kv => (kv.1, .array))
    match (objs_top d).add_array_to_key (keys_top d).1 st.h with
    | .error e => .error e
    | .ok (nd, h') =>
      let d := { d with json_objs := nd :: d.json_objs }
      let d := if next_char_is_newline d then { d with line := d.line.dropLast } else d
      .ok (true, { h := h', d := d })
  else if array_is_array d && line_char d == ']' then
    let d := { d with hierarchy := d.hierarchy.tail }
    let d := if !d.json_objs.isEmpty then { d with json_objs := d.json_objs.tail } else d
    .ok (true, { st with d := { d with
      hierarchy := (.maybe_empty_space_after, d.line_number) :: d.hierarchy } })
  else .ok (false, st)

/-- parser_syntax::closing_bracket::handle_closing_bracket (ljson.hpp:2006):
    a '\x7d' consumes an opening_bracket frame, otherwise it is an error. -/
def handle_closing_bracket (st : pstate) : Except error (Bool × pstate) :=
  let d := st.d
  if line_char d != '\x7d' || value_is_string d then .ok (false, st)
  else if !d.hierarchy.isEmpty && (hier_top d).1 == .opening_bracket then
    .ok (true, { st with d := { d with hierarchy := d.hierarchy.tail } })
  else if !d.hierarchy.isEmpty then
    .error ⟨.parsing_error, "error at closing bracket"⟩
  else
    .error ⟨.parsing_error, "extra closing bracket"⟩

/-- parser_syntax::syntax_error::expected_x_but_found_y (ljson.hpp:2040);
    the messages keep their static part only. -/
def expected_x_but_found_y (d : parsing_data) : String :=
  if d.hierarchy.isEmpty then "expected opening bracket"
  else
    match (hier_top d).1 with
    | .array => "expected array values"
    | .object => "expected object key/value pairs"
    | .opening_bracket => "expected EOF, key, array, object"
    | .column => "expected value"
    | .string_value => "expected string value"
    | .quotes_1 => "expected string value or quote"
    | .quotes_2 => "expected string value or quote"
    | .closing_bracket => "expected EOF"
    | _ => "unexpected syntax"

/-- parser_syntax::syntax_error::handle_syntax_error (ljson.hpp:2031):
    the final fallback; anything that is not an end of statement is a
    parsing_error. -/
def handle_syntax_error (st : pstate) : Except error (Bool × pstate) :=
  if is_end_statement st.d then .ok (false, st)
  else .error ⟨.parsing_error, "syntax error: " ++ expected_x_but_found_y st.d⟩

/-- parser::parsing (ljson.hpp:2976): the fixed priority dispatch; the
    first handler that consumes the character (or errors) wins. -/
def parsing (st : pstate) : Except error pstate :=
  let r := run_till_end_of_statement st.d
  if r.1 then .ok { st with d := r.2 }
  else
    let step (acc : Except error (Bool × pstate))
        (hd : pstate → Except error (Bool × pstate)) : Except error (Bool × pstate) :=
      match acc with
      | .error e => .error e
      | .ok (true, st') => .ok (true, st')
      | .ok (false, st') => hd st'
    let r := step (step (step (step (step (step (step (step (step (step
      (handle_empty st)
      handle_quotes) handle_key) handle_column) handle_value) handle_object)
      handle_array) handle_end_statement) handle_open_bracket)
      handle_closing_bracket) handle_syntax_error
    match r with
    | .error e => .error e
    | .ok (_, st') => .ok st'

/-- the character loop of parser::try_parse (ljson.hpp:3114):
    `for (data.i = 0; data.i < data.line.size(); data.i++)`.  The fuel is
    one more than the line length; since no handler decreases data.i and
    the line only ever shrinks, the loop runs at most line-length times and
    the fuel is never exhausted. -/
def parse_chars : ℕ → pstate → Except error pstate
  | 0, st => .ok st
  | fuel + 1, st =>
    if st.d.i < st.d.line.length then
      match parsing st with
      | .error e => .error e
      | .ok st' => parse_chars fuel { st' with d := { st'.d with i := st'.d.i + 1 } }
    else .ok st

/-- parser::check_unhandled_hierarchy (ljson.hpp:2947): the synthesized
    final check after the input is exhausted.  `std::string(raw_json.back(), 1)`
    calls the (count, char) constructor, producing a string of
    back-many '\x01' characters — reproduced faithfully. -/
def check_unhandled_hierarchy (raw : List Char) (st : pstate) : Except error pstate :=
  if st.d.hierarchy.isEmpty || raw.isEmpty then .ok st
  else if raw.getLast? == some '\x7d' && (hier_top st.d).1 == .opening_bracket then
    let st := { st with d := { st.d with line := ['\x7d'], i := 0 } }
    match handle_closing_bracket st with
    | .error e => .error e
    | .ok (_, st') => .ok st'
  else
    let st := { st with d := { st.d with
      line := List.replicate (raw.getLastD '\x00').toNat '\x01', i := 0 } }
    match handle_syntax_error st with
    | .error e => .error e
    | .ok (_, st') => .ok st'

/-- the buffering loop of parser::try_parse(const std::string&)
    (ljson.hpp:3107): characters accumulate into data.line, and the line is
    fed to the character loop when it ends in a newline, comma or closing
    brace. -/
def tp_loop : List Char → pstate → Except error pstate
  | [], st => .ok st
  | c :: rest, st =>
    let d := { st.d with line := st.d.line ++ [c] }
    if c == '\n' || c == ',' || c == '\x7d' then
      match parse_chars (d.line.length + 1) { st with d := { d with i := 0 } } with
      | .error e => .error e
      | .ok st' =>
        tp_loop rest { st' with d := { st'.d with
          line := [], line_number := st'.d.line_number + 1 } }
    else tp_loop rest { st with d := d }

/-- parser::try_parse(const std::string&) (ljson.hpp:3096), with the root
    node, the state at end of input and the state after the final check all
    exposed. -/
def try_parse_states (raw : List Char) :
    Except error (node × pstate × pstate) := do
  let (root, h0) := node.mk_of_type .object {}
  let st0 : pstate := ⟨h0, { keys := [([], .simple_key)], json_objs := [root] }⟩
  let st1 ← tp_loop raw st0
  let st2 ← check_unhandled_hierarchy raw st1
  pure (root, st1, st2)

/-- parser::try_parse(const std::string&): the returned document node. -/
def try_parse (raw : List Char) : Except error node :=
  match try_parse_states raw with
  | .ok (root, _, _) => .ok root
  | .error e => .error e

/-- the final heap after a successful parse (the process memory in which
    the returned node is interpreted). -/
def try_parse_heap (raw : List Char) : heap :=
  match try_parse_states raw with
  | .ok (_, _, st2) => st2.h
  | .error _ => {}

end ljson

namespace ljson

/-- the end-to-end scenario input of the spec. -/
def c1_input : List Char :=
  "\x7b\"name\": \"cat\", \"age\": 5, \"smol\": true\x7d".toList

/-- number-classification inputs. -/
def c4_int_input : List Char := "\x7b\"k\":5\x7d".toList

/-- a float-shaped token with a trailing zero fraction. -/
def c4_dot0_input : List Char := "\x7b\"k\":5.0\x7d".toList

/-- a float-shaped token with a nonzero fraction. -/
def c4_dot7_input : List Char := "\x7b\"k\":5.7\x7d".toList

/-- a numeric-looking token with embedded whitespace. -/
def c4_space_input : List Char := "\x7b\"age\":3 5\x7d".toList

/-- truncated input whose last character has code 1: the context stack is
    non-empty when the input is exhausted, yet the synthesized final check
    mistakes the character for an end of statement. -/
def c6_input : List Char := "\x7b\"a\":5,".toList ++ ['\x01']

/-- the recognized escape characters (ljson.hpp:1683). -/
def escape_chars : List Char := ['"', '\\', 't', 'b', 'f', 'n', 'r', 'u', '/']

/-- a one-key document whose string value contains the escape sequence
    backslash-c. -/
def esc_input (c : Char) : List Char :=
  "\x7b\"k\":\"a\\".toList ++ [c] ++ "b\"\x7d".toList

/-- the serialized form of the document esc_input parses to, with the raw
    escape text passed through verbatim. -/
def esc_round_trip (c : Char) : List Char :=
  "\x7b\n    \"k\": \"a\\".toList ++ [c] ++ "b\"\n\x7d".toList

/-- folding map_insert over a pair list, the map built by the object
    branch of operator+ . -/
def map_insert_fold (m0 : json_object) (pairs : json_object) : json_object :=
  pairs.foldl (fun acc kv => map_insert acc kv.1 kv.2) m0

end ljson

namespace ljson

theorem lget_app_lt {α} (l1 l2 : List α) (i : ℕ) (h : i < l1.length) :
    (l1 ++ l2).get? i = l1.get? i := by
  induction l1 generalizing i with
  | nil => simp at h
  | cons a t ih =>
    cases i with
    | zero => rfl
    | succ j => simpa using ih j (by simpa using h)

theorem lget_app_self {α} (l : List α) (a : α) :
    (l ++ [a]).get? l.length = some a := by
  induction l with
  | nil => rfl
  | cons b t ih => simp [ih]

theorem lget_some_lt {α} {l : List α} {i : ℕ} {a : α} (h : l.get? i = some a) :
    i < l.length := by
  induction l generalizing i with
  | nil => simp at h
  | cons b t ih =>
    cases i with
    | zero => simp
    | succ j =>
      have := ih (by simpa using h)
      simpa using Nat.succ_lt_succ this

theorem lget_set_self {α} (l : List α) (i : ℕ) (a : α) (h : i < l.length) :
    (l.set i a).get? i = some a := by
  induction l generalizing i with
  | nil => simp at h
  | cons b t ih =>
    cases i with
    | zero => rfl
    | succ j => simpa using ih j (by simpa using h)

theorem lget_set_ne {α} (l : List α) (i j : ℕ) (a : α) (h : i ≠ j) :
    (l.set i a).get? j = l.get? j := by
  induction l generalizing i j with
  | nil => rfl
  | cons b t ih =>
    cases i with
    | zero =>
      cases j with
      | zero => exact absurd rfl h
      | succ j' => rfl
    | succ i' =>
      cases j with
      | zero => rfl
      | succ j' => simpa using ih i' j' (fun e => h (by rw [e]))

theorem map_find_insert_self (m : json_object) (k : List Char) (v : node) :
    map_find (map_insert m k v) k = some v := by
  induction m with
  | nil => simp [map_insert, map_find]
  | cons kv rest ih =>
    by_cases hlt : str_lt k kv.1 = true
    · simp [map_insert, hlt, map_find]
    · by_cases heq : k = kv.1
      · subst heq
        simp only [map_insert, hlt, if_false, if_pos rfl]
        simp [map_find]
      · simp [map_insert, hlt, heq, map_find, ih]

theorem map_find_insert_ne (m : json_object) (k0 : List Char) (v : node)
    (k : List Char) (h : k ≠ k0) :
    map_find (map_insert m k0 v) k = map_find m k := by
  induction m with
  | nil => simp [map_insert, map_find, h]
  | cons kv rest ih =>
    by_cases hlt : str_lt k0 kv.1 = true
    · simp [map_insert, hlt, map_find, h]
    · by_cases heq : k0 = kv.1
      · subst heq
        simp [map_insert, hlt, map_find, h]
      · by_cases hk : k = kv.1
        · simp [map_insert, hlt, heq, map_find, hk]
        · simp [map_insert, hlt, heq, map_find, hk, ih]

theorem map_contains_insert (m : json_object) (k0 : List Char) (v : node)
    (k : List Char) :
    map_contains (map_insert m k0 v) k = true ↔
      k = k0 ∨ map_contains m k = true := by
  by_cases h : k = k0
  · subst h
    simp [map_contains, map_find_insert_self]
  · simp [map_contains, map_find_insert_ne m k0 v k h, h]

theorem map_contains_iff_mem (m : json_object) (k : List Char) :
    map_contains m k = true ↔ ∃ v, (k, v) ∈ m := by
  induction m with
  | nil => simp [map_contains, map_find]
  | cons kv rest ih =>
    by_cases h : k = kv.1
    · subst h
      constructor
      · exact fun _ => ⟨kv.2, by simp⟩
      · intro _
        simp [map_contains, map_find]
    · constructor
      · intro hc
        have : map_contains rest k = true := by
          simpa [map_contains, map_find, h] using hc
        obtain ⟨v, hv⟩ := ih.mp this
        exact ⟨v, by simp [hv]⟩
      · rintro ⟨v, hv⟩
        rcases List.mem_cons.mp hv with he | hm
        · exact absurd (congrArg Prod.fst he) h
        · have := ih.mpr ⟨v, hm⟩
          simpa [map_contains, map_find, h] using this

theorem contains_fold (pairs : json_object) :
    ∀ (m0 : json_object) (k : List Char),
      map_contains (map_insert_fold m0 pairs) k = true ↔
        map_contains m0 k = true ∨ ∃ v, (k, v) ∈ pairs := by
  induction pairs with
  | nil => intro m0 k; simp [map_insert_fold]
  | cons kv rest ih =>
    intro m0 k
    have step : map_insert_fold m0 (kv :: rest) =
        map_insert_fold (map_insert m0 kv.1 kv.2) rest := rfl
    rw [step, ih]
    rw [map_contains_insert]
    constructor
    · rintro (⟨he | hc⟩ | ⟨v, hv⟩)
      · exact Or.inr ⟨kv.2, by simp [he]⟩
      · exact Or.inl hc
      · exact Or.inr ⟨v, by simp [hv]⟩
    · rintro (hc | ⟨v, hv⟩)
      · exact Or.inl (Or.inr hc)
      · rcases List.mem_cons.mp hv with he | hm
        · exact Or.inl (Or.inl (congrArg Prod.fst he))
        · exact Or.inr ⟨v, hm⟩

theorem find_fold_not_mem (pairs : json_object) :
    ∀ (m0 : json_object) (k : List Char), k ∉ pairs.map Prod.fst →
      map_find (map_insert_fold m0 pairs) k = map_find m0 k := by
  induction pairs with
  | nil => intro m0 k _; rfl
  | cons kv rest ih =>
    intro m0 k hk
    have hne : k ≠ kv.1 := by
      intro e
      exact hk (by rw [e]; exact List.mem_map.mpr ⟨kv, List.mem_cons_self _ _, rfl⟩)
    have hrest : k ∉ rest.map Prod.fst := by
      intro e
      apply hk
      simp only [List.map_cons, List.mem_cons]
      exact Or.inr e
    have step : map_insert_fold m0 (kv :: rest) =
        map_insert_fold (map_insert m0 kv.1 kv.2) rest := rfl
    rw [step, ih _ k hrest, map_find_insert_ne _ _ _ _ hne]

theorem find_fold_mem (pairs : json_object) :
    ∀ (m0 : json_object) (k : List Char) (v : node),
      (pairs.map Prod.fst).Nodup → (k, v) ∈ pairs →
      map_find (map_insert_fold m0 pairs) k = some v := by
  induction pairs with
  | nil => intro m0 k v _ hm; simp at hm
  | cons kv rest ih =>
    intro m0 k v hnd hm
    have hnd' : (kv.1 :: rest.map Prod.fst).Nodup := by
      rw [List.map_cons] at hnd
      exact hnd
    have step : map_insert_fold m0 (kv :: rest) =
        map_insert_fold (map_insert m0 kv.1 kv.2) rest := rfl
    rcases List.mem_cons.mp hm with he | hmr
    · have hk : k = kv.1 := congrArg Prod.fst he
      have hv : v = kv.2 := congrArg Prod.snd he
      have hnotin : k ∉ rest.map Prod.fst := by
        rw [hk]
        exact (List.nodup_cons.mp hnd').1
      rw [step, find_fold_not_mem rest _ k hnotin, hk, hv, map_find_insert_self]
    · have hk : k ≠ kv.1 := by
        intro e
        have : kv.1 ∈ rest.map Prod.fst := List.mem_map.mpr ⟨(k, v), hmr, by rw [e]⟩
        exact (List.nodup_cons.mp hnd').1 this
      rw [step]
      exact ih _ k v (by simpa using (List.nodup_cons.mp hnd').2) hmr

end ljson

namespace ljson

theorem type_object_ptr (p : ℕ) : node.type ⟨.object_ptr p⟩ = .object := rfl

theorem type_array_ptr (p : ℕ) : node.type ⟨.array_ptr p⟩ = .array := rfl

theorem type_value_ptr (p : ℕ) : node.type ⟨.value_ptr p⟩ = .value := rfl

theorem read_object_of_get {h : heap} {p : ℕ} {m : json_object}
    (hm : h.objects.get? p = some m) : node.read_object h p = .ok m := by
  unfold node.read_object
  rw [hm]

theorem read_array_of_get {h : heap} {p : ℕ} {l : List node}
    (hm : h.arrays.get? p = some l) : node.read_array h p = .ok l := by
  unfold node.read_array
  rw [hm]

theorem read_value_of_get {h : heap} {p : ℕ} {v : value}
    (hm : h.values.get? p = some v) : node.read_value h p = .ok v := by
  unfold node.read_value
  rw [hm]

theorem add_node_to_key_obj {h : heap} {p : ℕ} {m : json_object}
    (hm : h.objects.get? p = some m) (k : List Char) (nd : node) :
    node.add_node_to_key ⟨.object_ptr p⟩ k nd h =
      .ok (nd, h.write_object p (map_insert m k nd)) := by
  show Bind.bind (node.read_object h p) _ = _
  rw [read_object_of_get hm]
  rfl

theorem add_node_to_array_arr {h : heap} {p : ℕ} {l : List node}
    (hm : h.arrays.get? p = some l) (nd : node) :
    node.add_node_to_array ⟨.array_ptr p⟩ nd h =
      .ok (nd, h.write_array p (l ++ [nd])) := by
  show Bind.bind (node.read_array h p) _ = _
  rw [read_array_of_get hm]
  rfl

theorem except_bind_ok {ε α β : Type} (a : α) (f : α → Except ε β) :
    (Except.ok a : Except ε α) >>= f = f a := rfl

theorem fold_add_keys_spec (pairs : json_object) :
    ∀ (h : heap) (p : ℕ) (m0 : json_object), h.objects.get? p = some m0 →
      (fold_add_keys ⟨.object_ptr p⟩ pairs h).objects.get? p
          = some (map_insert_fold m0 pairs) ∧
      (∀ q, q ≠ p →
        (fold_add_keys ⟨.object_ptr p⟩ pairs h).objects.get? q = h.objects.get? q) ∧
      (fold_add_keys ⟨.object_ptr p⟩ pairs h).values = h.values ∧
      (fold_add_keys ⟨.object_ptr p⟩ pairs h).arrays = h.arrays := by
  induction pairs with
  | nil => intro h p m0 hm; exact ⟨hm, fun q _ => rfl, rfl, rfl⟩
  | cons kv rest ih =>
    intro h p m0 hm
    have hstep : fold_add_keys ⟨.object_ptr p⟩ (kv :: rest) h =
        fold_add_keys ⟨.object_ptr p⟩ rest
          (add_key_ignore ⟨.object_ptr p⟩ kv.1 kv.2 h) := rfl
    have h1eq : add_key_ignore ⟨.object_ptr p⟩ kv.1 kv.2 h =
        h.write_object p (map_insert m0 kv.1 kv.2) := by
      unfold add_key_ignore
      rw [add_node_to_key_obj hm]
    have hp : p < h.objects.length := lget_some_lt hm
    have hm1 : (h.write_object p (map_insert m0 kv.1 kv.2)).objects.get? p =
        some (map_insert m0 kv.1 kv.2) :=
      lget_set_self h.objects p (map_insert m0 kv.1 kv.2) hp
    obtain ⟨ha, hb, hv, harr⟩ := ih (h.write_object p (map_insert m0 kv.1 kv.2))
      p (map_insert m0 kv.1 kv.2) hm1
    refine ⟨?_, ?_, ?_, ?_⟩
    · rw [hstep, h1eq]
      exact ha
    · intro q hq
      rw [hstep, h1eq, hb q hq]
      exact lget_set_ne h.objects p q _ (fun e => hq e.symm)
    · rw [hstep, h1eq]
      exact hv
    · rw [hstep, h1eq]
      exact harr

theorem fold_add_arr_spec (l : List node) :
    ∀ (h : heap) (p : ℕ) (acc : List node), h.arrays.get? p = some acc →
      (fold_add_arr ⟨.array_ptr p⟩ l h).arrays.get? p = some (acc ++ l) ∧
      (∀ q, q ≠ p →
        (fold_add_arr ⟨.array_ptr p⟩ l h).arrays.get? q = h.arrays.get? q) ∧
      (fold_add_arr ⟨.array_ptr p⟩ l h).values = h.values ∧
      (fold_add_arr ⟨.array_ptr p⟩ l h).objects = h.objects := by
  induction l with
  | nil =>
    intro h p acc hm
    exact ⟨by simpa using hm, fun q _ => rfl, rfl, rfl⟩
  | cons nd rest ih =>
    intro h p acc hm
    have hstep : fold_add_arr ⟨.array_ptr p⟩ (nd :: rest) h =
        fold_add_arr ⟨.array_ptr p⟩ rest (add_arr_ignore ⟨.array_ptr p⟩ nd h) := rfl
    have h1eq : add_arr_ignore ⟨.array_ptr p⟩ nd h =
        h.write_array p (acc ++ [nd]) := by
      unfold add_arr_ignore
      rw [add_node_to_array_arr hm]
    have hp : p < h.arrays.length := lget_some_lt hm
    have hm1 : (h.write_array p (acc ++ [nd])).arrays.get? p = some (acc ++ [nd]) :=
      lget_set_self h.arrays p (acc ++ [nd]) hp
    obtain ⟨ha, hb, hv, hob⟩ := ih (h.write_array p (acc ++ [nd])) p (acc ++ [nd]) hm1
    refine ⟨?_, ?_, ?_, ?_⟩
    · rw [hstep, h1eq, ha]
      simp
    · intro q hq
      rw [hstep, h1eq, hb q hq]
      exact lget_set_ne h.arrays p q _ (fun e => hq e.symm)
    · rw [hstep, h1eq]
      exact hv
    · rw [hstep, h1eq]
      exact hob

theorem op_plus_objects (h : heap) (p1 p2 : ℕ) (m1 m2 : json_object)
    (hm1 : h.objects.get? p1 = some m1) (hm2 : h.objects.get? p2 = some m2) :
    op_plus ⟨.object_ptr p1⟩ ⟨.object_ptr p2⟩ h =
        .ok (⟨.object_ptr h.objects.length⟩,
          fold_add_keys ⟨.object_ptr h.objects.length⟩ m2
            (fold_add_keys ⟨.object_ptr h.objects.length⟩ m1
              { h with objects := h.objects ++ [[]] })) ∧
      (fold_add_keys ⟨.object_ptr h.objects.length⟩ m2
        (fold_add_keys ⟨.object_ptr h.objects.length⟩ m1
          { h with objects := h.objects ++ [[]] })).objects.get? h.objects.length =
        some (map_insert_fold (map_insert_fold [] m1) m2) := by
  have hp1 : p1 < h.objects.length := lget_some_lt hm1
  have hp2 : p2 < h.objects.length := lget_some_lt hm2
  have h0p1 : ({ h with objects := h.objects ++ [[]] } : heap).objects.get? p1
      = some m1 := by
    show (h.objects ++ [[]]).get? p1 = some m1
    rw [lget_app_lt _ _ _ hp1]
    exact hm1
  have h0pn : ({ h with objects := h.objects ++ [[]] } : heap).objects.get?
      h.objects.length = some [] := lget_app_self h.objects []
  obtain ⟨f1a, f1b, _, _⟩ :=
    fold_add_keys_spec m1 { h with objects := h.objects ++ [[]] }
      h.objects.length [] h0pn
  have hAp2 : (fold_add_keys ⟨.object_ptr h.objects.length⟩ m1
      { h with objects := h.objects ++ [[]] }).objects.get? p2 = some m2 := by
    rw [f1b p2 (Nat.ne_of_lt hp2)]
    show (h.objects ++ [[]]).get? p2 = some m2
    rw [lget_app_lt _ _ _ hp2]
    exact hm2
  obtain ⟨f2a, _, _, _⟩ :=
    fold_add_keys_spec m2 (fold_add_keys ⟨.object_ptr h.objects.length⟩ m1
      { h with objects := h.objects ++ [[]] }) h.objects.length
      (map_insert_fold [] m1) f1a
  refine ⟨?_, f2a⟩
  rw [op_plus]
  rw [if_neg (by rw [type_object_ptr, type_object_ptr]; exact fun e => e rfl)]
  rw [if_pos (show node.is_object ⟨.object_ptr p1⟩ = true from rfl)]
  show Bind.bind (node.as_object ⟨.object_ptr p1⟩) _ = _
  rw [show node.as_object ⟨.object_ptr p1⟩ = .ok p1 from rfl]
  rw [except_bind_ok]
  rw [read_object_of_get h0p1]
  simp only [except_bind_ok]
  rw [show node.as_object ⟨.object_ptr p2⟩ = .ok p2 from rfl]
  simp only [except_bind_ok]
  rw [read_object_of_get hAp2]
  simp only [except_bind_ok]

theorem op_plus_arrays (h : heap) (p1 p2 : ℕ) (l1 l2 : List node)
    (hm1 : h.arrays.get? p1 = some l1) (hm2 : h.arrays.get? p2 = some l2) :
    op_plus ⟨.array_ptr p1⟩ ⟨.array_ptr p2⟩ h =
        .ok (⟨.array_ptr h.arrays.length⟩,
          fold_add_arr ⟨.array_ptr h.arrays.length⟩ l2
            (fold_add_arr ⟨.array_ptr h.arrays.length⟩ l1
              { h with arrays := h.arrays ++ [[]] })) ∧
      (fold_add_arr ⟨.array_ptr h.arrays.length⟩ l2
        (fold_add_arr ⟨.array_ptr h.arrays.length⟩ l1
          { h with arrays := h.arrays ++ [[]] })).arrays.get? h.arrays.length =
        some (l1 ++ l2) := by
  have hp1 : p1 < h.arrays.length := lget_some_lt hm1
  have hp2 : p2 < h.arrays.length := lget_some_lt hm2
  have h0p1 : ({ h with arrays := h.arrays ++ [[]] } : heap).arrays.get? p1
      = some l1 := by
    show (h.arrays ++ [[]]).get? p1 = some l1
    rw [lget_app_lt _ _ _ hp1]
    exact hm1
  have h0pn : ({ h with arrays := h.arrays ++ [[]] } : heap).arrays.get?
      h.arrays.length = some [] := lget_app_self h.arrays []
  obtain ⟨f1a, f1b, _, _⟩ :=
    fold_add_arr_spec l1 { h with arrays := h.arrays ++ [[]] }
      h.arrays.length [] h0pn
  have hAnth : (fold_add_arr ⟨.array_ptr h.arrays.length⟩ l1
      { h with arrays := h.arrays ++ [[]] }).arrays.get? h.arrays.length
      = some l1 := by simpa using f1a
  have hAp2 : (fold_add_arr ⟨.array_ptr h.arrays.length⟩ l1
      { h with arrays := h.arrays ++ [[]] }).arrays.get? p2 = some l2 := by
    rw [f1b p2 (Nat.ne_of_lt hp2)]
    show (h.arrays ++ [[]]).get? p2 = some l2
    rw [lget_app_lt _ _ _ hp2]
    exact hm2
  obtain ⟨f2a, _, _, _⟩ :=
    fold_add_arr_spec l2 (fold_add_arr ⟨.array_ptr h.arrays.length⟩ l1
      { h with arrays := h.arrays ++ [[]] }) h.arrays.length l1 hAnth
  refine ⟨?_, f2a⟩
  rw [op_plus]
  rw [if_neg (by rw [type_array_ptr, type_array_ptr]; exact fun e => e rfl)]
  rw [if_neg (show ¬ node.is_object ⟨.array_ptr p1⟩ = true from fun e => by cases e)]
  rw [if_pos (show node.is_array ⟨.array_ptr p1⟩ = true from rfl)]
  show Bind.bind (node.as_array ⟨.array_ptr p1⟩) _ = _
  rw [show node.as_array ⟨.array_ptr p1⟩ = .ok p1 from rfl]
  rw [except_bind_ok]
  rw [read_array_of_get h0p1]
  simp only [except_bind_ok]
  rw [show node.as_array ⟨.array_ptr p2⟩ = .ok p2 from rfl]
  simp only [except_bind_ok]
  rw [read_array_of_get hAp2]
  simp only [except_bind_ok]

end ljson

namespace ljson

/-- C1: parsing the input with keys name, age and smol succeeds and yields
    an object node containing the three keys, where at(name) holds the
    string value cat, at(age) holds the integer value 5 and at(smol) holds
    the boolean value true. -/
theorem C1_end_to_end_scenario :
    try_parse c1_input = .ok ⟨.object_ptr 0⟩ ∧
    node.is_object ⟨.object_ptr 0⟩ = true ∧
    node.contains ⟨.object_ptr 0⟩ "name".toList (try_parse_heap c1_input) = true ∧
    node.contains ⟨.object_ptr 0⟩ "age".toList (try_parse_heap c1_input) = true ∧
    node.contains ⟨.object_ptr 0⟩ "smol".toList (try_parse_heap c1_input) = true ∧
    ((⟨.object_ptr 0⟩ : node).at_key "name".toList (try_parse_heap c1_input)).bind
      (fun nd => nd.try_as_string (try_parse_heap c1_input)) = .ok "cat".toList ∧
    ((⟨.object_ptr 0⟩ : node).at_key "age".toList (try_parse_heap c1_input)).bind
      (fun nd => nd.try_as_integer (try_parse_heap c1_input)) = .ok 5 ∧
    ((⟨.object_ptr 0⟩ : node).at_key "smol".toList (try_parse_heap c1_input)).bind
      (fun nd => nd.try_as_boolean (try_parse_heap c1_input)) = .ok true := by
  decide

/-- C2: every node is exactly one of object, array and value, and each
    mismatched accessor fails with wrong_type, in both the result-returning
    try form and the throwing form (modelled by the same Except error);
    no mismatched access produces a default value. -/
theorem C2_type_safety (n : node) :
    ((n.is_object = true ∧ n.is_array = false ∧ n.is_value = false) ∨
     (n.is_object = false ∧ n.is_array = true ∧ n.is_value = false) ∨
     (n.is_object = false ∧ n.is_array = false ∧ n.is_value = true)) ∧
    (n.is_object = false →
      ∃ e, n.try_as_object = .error e ∧ e.err_type = .wrong_type ∧
        n.as_object = .error e) ∧
    (n.is_array = false →
      ∃ e, n.try_as_array = .error e ∧ e.err_type = .wrong_type ∧
        n.as_array = .error e) ∧
    (n.is_value = false →
      ∃ e, n.try_as_value = .error e ∧ e.err_type = .wrong_type ∧
        n.as_value = .error e) := by
  obtain ⟨jn⟩ := n
  cases jn with
  | value_ptr p =>
    refine ⟨Or.inr (Or.inr ⟨rfl, rfl, rfl⟩), ?_, ?_, ?_⟩
    · intro _
      exact ⟨⟨.wrong_type, "wrong type: trying to cast a node to an object"⟩,
        rfl, rfl, rfl⟩
    · intro _
      exact ⟨⟨.wrong_type, "wrong type: trying to cast a node to an array"⟩,
        rfl, rfl, rfl⟩
    · intro hv
      simp [node.is_value] at hv
  | array_ptr p =>
    refine ⟨Or.inr (Or.inl ⟨rfl, rfl, rfl⟩), ?_, ?_, ?_⟩
    · intro _
      exact ⟨⟨.wrong_type, "wrong type: trying to cast a node to an object"⟩,
        rfl, rfl, rfl⟩
    · intro hv
      simp [node.is_array] at hv
    · intro _
      exact ⟨⟨.wrong_type, "wrong type: trying to cast a node to a value"⟩,
        rfl, rfl, rfl⟩
  | object_ptr p =>
    refine ⟨Or.inl ⟨rfl, rfl, rfl⟩, ?_, ?_, ?_⟩
    · intro hv
      simp [node.is_object] at hv
    · intro _
      exact ⟨⟨.wrong_type, "wrong type: trying to cast a node to an array"⟩,
        rfl, rfl, rfl⟩
    · intro _
      exact ⟨⟨.wrong_type, "wrong type: trying to cast a node to a value"⟩,
        rfl, rfl, rfl⟩

/-- C2 witness: the mismatched accessors of concrete nodes of each kind
    fail with wrong_type. -/
theorem C2_type_safety_witness :
    (∃ e, node.try_as_object ⟨.value_ptr 0⟩ = .error e ∧
      e.err_type = .wrong_type ∧ node.as_object ⟨.value_ptr 0⟩ = .error e) ∧
    (∃ e, node.try_as_array ⟨.object_ptr 0⟩ = .error e ∧
      e.err_type = .wrong_type ∧ node.as_array ⟨.object_ptr 0⟩ = .error e) ∧
    (∃ e, node.try_as_value ⟨.array_ptr 0⟩ = .error e ∧
      e.err_type = .wrong_type ∧ node.as_value ⟨.array_ptr 0⟩ = .error e) :=
  ⟨(C2_type_safety ⟨.value_ptr 0⟩).2.1 rfl,
   (C2_type_safety ⟨.object_ptr 0⟩).2.2.1 rfl,
   (C2_type_safety ⟨.array_ptr 0⟩).2.2.2 rfl⟩

/-- C4: the token 5 parses to a value of integer kind; 5.0 and 5.7 parse
    to values of double kind; the numeric-looking token with embedded
    whitespace in the age object makes the whole parse fail with a
    parsing_error (it is never accepted as 35 or 3). -/
theorem C4_number_classification :
    (try_parse c4_int_input).isOk = true ∧
    ((⟨.object_ptr 0⟩ : node).at_key "k".toList (try_parse_heap c4_int_input)).map
      (fun nd => nd.valuetype (try_parse_heap c4_int_input)) = .ok .integer ∧
    ((⟨.object_ptr 0⟩ : node).at_key "k".toList (try_parse_heap c4_int_input)).bind
      (fun nd => nd.try_as_integer (try_parse_heap c4_int_input)) = .ok 5 ∧
    (try_parse c4_dot0_input).isOk = true ∧
    ((⟨.object_ptr 0⟩ : node).at_key "k".toList (try_parse_heap c4_dot0_input)).map
      (fun nd => nd.valuetype (try_parse_heap c4_dot0_input)) = .ok .double_t ∧
    (try_parse c4_dot7_input).isOk = true ∧
    ((⟨.object_ptr 0⟩ : node).at_key "k".toList (try_parse_heap c4_dot7_input)).map
      (fun nd => nd.valuetype (try_parse_heap c4_dot7_input)) = .ok .double_t ∧
    try_parse c4_space_input =
      .error ⟨.parsing_error, "reached an empty-space on non-string unknown type"⟩ := by
  decide

/-- C7 (amended): for every node holding an array and every index at or
    beyond the array length, at(index) fails with an error of kind
    key_not_found; the source reuses the key-lookup kind here and never
    reports wronge_index. -/
theorem C7_at_index_out_of_range (h : heap) (p i : ℕ) (l : List node)
    (hl : h.arrays.get? p = some l) (hi : i ≥ l.length) :
    node.at_idx ⟨.array_ptr p⟩ i h = .error ⟨.key_not_found, "index not found"⟩ := by
  show Bind.bind (node.as_array ⟨.array_ptr p⟩) _ = _
  rw [show node.as_array ⟨.array_ptr p⟩ = .ok p from rfl, except_bind_ok]
  rw [read_array_of_get hl, except_bind_ok]
  rw [if_pos hi]

/-- C7 witness: accessing index 0 of a concrete empty array fails with
    key_not_found. -/
theorem C7_at_index_out_of_range_witness :
    node.at_idx ⟨.array_ptr 0⟩ 0 ({ arrays := [[]] } : heap) =
      .error ⟨.key_not_found, "index not found"⟩ :=
  C7_at_index_out_of_range { arrays := [[]] } 0 0 [] rfl (Nat.le_refl 0)

/-- C7 counterexample: at an out-of-range index the error kind is
    key_not_found, not the wronge_index kind of the error enum, so the
    claim as stated is false. -/
theorem C7_counterexample :
    (∃ e, node.at_idx ⟨.array_ptr 0⟩ 0 ({ arrays := [[]] } : heap) = .error e ∧
      e.err_type = .key_not_found ∧ e.err_type ≠ .wronge_index) ∧
    ¬ (∃ e, node.at_idx ⟨.array_ptr 0⟩ 0 ({ arrays := [[]] } : heap) = .error e ∧
      e.err_type = .wronge_index) := by
  constructor
  · exact ⟨⟨.key_not_found, "index not found"⟩, by decide, rfl, by decide⟩
  · rintro ⟨e, he, ht⟩
    have : e = ⟨.key_not_found, "index not found"⟩ := by
      have hd : node.at_idx ⟨.array_ptr 0⟩ 0 ({ arrays := [[]] } : heap) =
          .error ⟨.key_not_found, "index not found"⟩ := by decide
      rw [hd] at he
      exact (Except.error.inj he).symm
    rw [this] at ht
    exact absurd ht (by decide)

/-- C9: value::stringify is meant to trim trailing zeros of a double while
    keeping at least one digit after the decimal point, but on the double
    100.0 the trimming loop walks past the decimal point and produces the
    text 10 — no decimal point and a changed numeric value — while 1.5 and
    the integer 5 print as expected. -/
theorem C9_stringify_100 :
    value.stringify { _value := .vdouble 100, _type := .double_t } = "10".toList ∧
    value.stringify { _value := .vdouble (stod_chars "1.5".toList), _type := .double_t } =
      "1.5".toList ∧
    value.stringify { _value := .vint 5, _type := .integer } = "5".toList := by
  decide

end ljson

namespace ljson

/-- C5: operator+ on two object nodes yields an object whose key set is
    the union of the two key sets; on two arrays of lengths m and n it
    yields the length-(m+n) array of the left elements followed by the
    right elements; it fails with wrong_type on different top-level kinds
    and on incompatible scalar kinds such as boolean + boolean. -/
theorem C5_op_plus_contract :
    (∀ (h : heap) (p1 p2 : ℕ) (m1 m2 : json_object),
      h.objects.get? p1 = some m1 → h.objects.get? p2 = some m2 →
      ∃ h' mr, op_plus ⟨.object_ptr p1⟩ ⟨.object_ptr p2⟩ h =
          .ok (⟨.object_ptr h.objects.length⟩, h') ∧
        h'.objects.get? h.objects.length = some mr ∧
        (∀ k, map_contains mr k = true ↔
          map_contains m1 k = true ∨ map_contains m2 k = true)) ∧
    (∀ (h : heap) (p1 p2 : ℕ) (l1 l2 : List node),
      h.arrays.get? p1 = some l1 → h.arrays.get? p2 = some l2 →
      ∃ h' lr, op_plus ⟨.array_ptr p1⟩ ⟨.array_ptr p2⟩ h =
          .ok (⟨.array_ptr h.arrays.length⟩, h') ∧
        h'.arrays.get? h.arrays.length = some lr ∧
        lr = l1 ++ l2 ∧ lr.length = l1.length + l2.length) ∧
    (∀ (n1 n2 : node) (h : heap), n1.type ≠ n2.type →
      ∃ e, op_plus n1 n2 h = .error e ∧ e.err_type = .wrong_type) ∧
    (∀ (h : heap) (p1 p2 : ℕ) (v1 v2 : value),
      h.values.get? p1 = some v1 → h.values.get? p2 = some v2 →
      v1._type = .boolean → v2._type = .boolean →
      ∃ e, op_plus ⟨.value_ptr p1⟩ ⟨.value_ptr p2⟩ h = .error e ∧
        e.err_type = .wrong_type) := by
  refine ⟨?_, ?_, ?_, ?_⟩
  · intro h p1 p2 m1 m2 hm1 hm2
    obtain ⟨heq, hget⟩ := op_plus_objects h p1 p2 m1 m2 hm1 hm2
    refine ⟨_, map_insert_fold (map_insert_fold [] m1) m2, heq, hget, ?_⟩
    intro k
    rw [contains_fold, contains_fold]
    rw [map_contains_iff_mem m1, map_contains_iff_mem m2]
    constructor
    · rintro ((hbase | hm) | hm)
      · simp [map_contains, map_find] at hbase
      · exact Or.inl hm
      · exact Or.inr hm
    · rintro (hm | hm)
      · exact Or.inl (Or.inr hm)
      · exact Or.inr hm
  · intro h p1 p2 l1 l2 hm1 hm2
    obtain ⟨heq, hget⟩ := op_plus_arrays h p1 p2 l1 l2 hm1 hm2
    exact ⟨_, l1 ++ l2, heq, hget, rfl, List.length_append l1 l2⟩
  · intro n1 n2 h hne
    refine ⟨⟨.wrong_type, "trying to + two nodes with different types"⟩, ?_, rfl⟩
    rw [op_plus, if_pos hne]
  · intro h p1 p2 v1 v2 hv1 hv2 ht1 ht2
    have hv0 : ({ h with values :=
        h.values ++ [{ _value := .vmono, _type := .none }] } : heap).values.get? p1
        = some v1 := by
      show (h.values ++ [({ _value := .vmono, _type := .none } : value)]).get? p1
        = some v1
      rw [lget_app_lt _ _ _ (lget_some_lt hv1)]
      exact hv1
    refine ⟨⟨.wrong_type,
      "trying to + two nodes with values that are neither a number nor string"⟩,
      ?_, rfl⟩
    rw [op_plus]
    rw [if_neg (by rw [type_value_ptr, type_value_ptr]; exact fun e => e rfl)]
    rw [if_neg (show ¬ node.is_object ⟨.value_ptr p1⟩ = true from fun e => by cases e)]
    rw [if_neg (show ¬ node.is_array ⟨.value_ptr p1⟩ = true from fun e => by cases e)]
    show Bind.bind (node.as_value ⟨.value_ptr p1⟩) _ = _
    rw [show node.as_value ⟨.value_ptr p1⟩ = .ok p1 from rfl, except_bind_ok]
    rw [read_value_of_get hv0]
    simp only [except_bind_ok]
    rw [if_neg (show ¬ v1.type = value_type.string from by
      rw [show v1.type = v1._type from rfl, ht1]; exact fun e => by cases e)]
    rw [if_neg (show ¬ (v1.type = value_type.double_t ∨ v1.type = value_type.integer)
      from by
        rw [show v1.type = v1._type from rfl, ht1]
        rintro (e | e) <;> cases e)]

/-- C5 witness: the contract instantiated on concrete heaps — two
    two-key objects, a one-element and a two-element array, an array plus
    an object, and boolean plus boolean. -/
theorem C5_op_plus_contract_witness :
    (∃ h' mr, op_plus ⟨.object_ptr 0⟩ ⟨.object_ptr 1⟩
        ({ values := [⟨.vint 1, .integer⟩, ⟨.vint 2, .integer⟩,
            ⟨.vint 3, .integer⟩, ⟨.vint 4, .integer⟩],
           objects := [[("a".toList, ⟨.value_ptr 0⟩), ("b".toList, ⟨.value_ptr 1⟩)],
             [("c".toList, ⟨.value_ptr 2⟩), ("d".toList, ⟨.value_ptr 3⟩)]] } : heap) =
        .ok (⟨.object_ptr 2⟩, h') ∧
      h'.objects.get? 2 = some mr ∧
      (∀ k, map_contains mr k = true ↔
        map_contains [("a".toList, ⟨.value_ptr 0⟩), ("b".toList, ⟨.value_ptr 1⟩)] k
          = true ∨
        map_contains [("c".toList, ⟨.value_ptr 2⟩), ("d".toList, ⟨.value_ptr 3⟩)] k
          = true)) ∧
    (∃ h' lr, op_plus ⟨.array_ptr 0⟩ ⟨.array_ptr 1⟩
        ({ arrays := [[⟨.value_ptr 0⟩], [⟨.value_ptr 1⟩, ⟨.value_ptr 2⟩]] } : heap) =
        .ok (⟨.array_ptr 2⟩, h') ∧
      h'.arrays.get? 2 = some lr ∧
      lr = [⟨.value_ptr 0⟩] ++ [⟨.value_ptr 1⟩, ⟨.value_ptr 2⟩] ∧
      lr.length = 1 + 2) ∧
    (∃ e, op_plus ⟨.array_ptr 0⟩ ⟨.object_ptr 0⟩
        ({ arrays := [[]], objects := [[]] } : heap) = .error e ∧
      e.err_type = .wrong_type) ∧
    (∃ e, op_plus ⟨.value_ptr 0⟩ ⟨.value_ptr 1⟩
        ({ values := [⟨.vbool true, .boolean⟩, ⟨.vbool false, .boolean⟩] } : heap) =
        .error e ∧ e.err_type = .wrong_type) :=
  ⟨C5_op_plus_contract.1 _ 0 1 _ _ rfl rfl,
   C5_op_plus_contract.2.1 _ 0 1 _ _ rfl rfl,
   C5_op_plus_contract.2.2.1 ⟨.array_ptr 0⟩ ⟨.object_ptr 0⟩ _ (by decide),
   C5_op_plus_contract.2.2.2 _ 0 1 _ _ rfl rfl rfl rfl⟩

/-- C10: when operator+ joins two object nodes with overlapping keys, the
    resulting object maps every shared key to the right-hand operand's
    node — the second insertion loop overwrites through map assignment. -/
theorem C10_plus_right_overwrites (h : heap) (p1 p2 : ℕ)
    (m1 m2 : json_object) (k : List Char) (v : node)
    (hm1 : h.objects.get? p1 = some m1) (hm2 : h.objects.get? p2 = some m2)
    (_hshared : map_contains m1 k = true)
    (hnd : (m2.map Prod.fst).Nodup) (hmem : (k, v) ∈ m2) :
    ∃ h' mr, op_plus ⟨.object_ptr p1⟩ ⟨.object_ptr p2⟩ h =
        .ok (⟨.object_ptr h.objects.length⟩, h') ∧
      h'.objects.get? h.objects.length = some mr ∧
      map_find mr k = some v := by
  obtain ⟨heq, hget⟩ := op_plus_objects h p1 p2 m1 m2 hm1 hm2
  exact ⟨_, map_insert_fold (map_insert_fold [] m1) m2, heq, hget,
    find_fold_mem m2 _ k v hnd hmem⟩

/-- C10 witness: joining concrete objects sharing the key b maps b to the
    right operand's stored node. -/
theorem C10_plus_right_overwrites_witness :
    ∃ h' mr, op_plus ⟨.object_ptr 0⟩ ⟨.object_ptr 1⟩
        ({ values := [⟨.vint 1, .integer⟩, ⟨.vint 2, .integer⟩,
            ⟨.vint 3, .integer⟩],
           objects := [[("a".toList, ⟨.value_ptr 0⟩), ("b".toList, ⟨.value_ptr 1⟩)],
             [("b".toList, ⟨.value_ptr 2⟩)]] } : heap) =
        .ok (⟨.object_ptr 2⟩, h') ∧
      h'.objects.get? 2 = some mr ∧
      map_find mr "b".toList = some ⟨.value_ptr 2⟩ :=
  C10_plus_right_overwrites _ 0 1 _ _ "b".toList ⟨.value_ptr 2⟩ rfl rfl
    (by decide) (by decide) (by decide)

end ljson

namespace ljson

/-- C3 (amended): node::at returns a reference to the entry stored in the
    parent object's cell; set() executed on that reference replaces the
    entry in place, so a fresh at(k) yields the newly allocated node and
    reading it back gives the value that was set.  (A set() on a *copied*
    handle rebinds only the copy's shared pointer and is not visible —
    see the counterexample.) -/
theorem C3_set_through_at_reference (h : heap) (p : ℕ) (m : json_object)
    (k : List Char) (z : ℤ) (hm : h.objects.get? p = some m)
    (hk : map_contains m k = true) :
    ∃ h', node.at_set ⟨.object_ptr p⟩ k (.aint z) h = .ok h' ∧
      node.at_key ⟨.object_ptr p⟩ k h' = .ok ⟨.value_ptr h.values.length⟩ ∧
      node.try_as_integer ⟨.value_ptr h.values.length⟩ h' = .ok z := by
  obtain ⟨v0, hfind⟩ : ∃ v0, map_find m k = some v0 := by
    cases hf : map_find m k with
    | some v0 => exact ⟨v0, rfl⟩
    | none => rw [map_contains, hf] at hk; cases hk
  have hp : p < h.objects.length := lget_some_lt hm
  refine ⟨({ h with values := h.values ++ [{ _value := .vint z, _type := .integer }]
      } : heap).write_object p
      (map_insert m k ⟨.value_ptr h.values.length⟩), ?_, ?_, ?_⟩
  · show Bind.bind (node.as_object ⟨.object_ptr p⟩) _ = _
    rw [show node.as_object ⟨.object_ptr p⟩ = .ok p from rfl, except_bind_ok]
    rw [read_object_of_get hm, except_bind_ok]
    rw [hfind]
    rfl
  · show Bind.bind (node.as_object ⟨.object_ptr p⟩) _ = _
    rw [show node.as_object ⟨.object_ptr p⟩ = .ok p from rfl, except_bind_ok]
    have hro : node.read_object
        (({ h with values := h.values ++ [{ _value := .vint z, _type := .integer }]
          } : heap).write_object p (map_insert m k ⟨.value_ptr h.values.length⟩)) p =
        .ok (map_insert m k ⟨.value_ptr h.values.length⟩) :=
      read_object_of_get (lget_set_self h.objects p _ hp)
    rw [hro, except_bind_ok, map_find_insert_self]
  · show Bind.bind (node.try_as_value ⟨.value_ptr h.values.length⟩) _ = _
    rw [show node.try_as_value ⟨.value_ptr h.values.length⟩ =
      .ok h.values.length from rfl, except_bind_ok]
    have hrv : node.read_value
        (({ h with values := h.values ++ [{ _value := .vint z, _type := .integer }]
          } : heap).write_object p (map_insert m k ⟨.value_ptr h.values.length⟩))
        h.values.length =
        .ok { _value := .vint z, _type := .integer } :=
      read_value_of_get (lget_app_self h.values _)
    rw [hrv, except_bind_ok]
    rfl

/-- C3 witness: setting through the at() reference on a concrete one-key
    object is visible on a fresh at(). -/
theorem C3_set_through_at_reference_witness :
    ∃ h', node.at_set ⟨.object_ptr 0⟩ "k".toList (.aint 2)
        ({ values := [⟨.vint 1, .integer⟩],
           objects := [[("k".toList, ⟨.value_ptr 0⟩)]] } : heap) = .ok h' ∧
      node.at_key ⟨.object_ptr 0⟩ "k".toList h' = .ok ⟨.value_ptr 1⟩ ∧
      node.try_as_integer ⟨.value_ptr 1⟩ h' = .ok 2 :=
  C3_set_through_at_reference _ 0 _ "k".toList 2 rfl (by decide)

/-- C3 counterexample: with the one-key object a equals at(k) read into a
    copied handle (the spec's Node obtained by copy); a.set(2) rebinds only
    the copy's shared pointer, and a fresh at(k) still yields the original
    cell holding 1, not 2 — the claim as stated fails here. -/
theorem C3_counterexample :
    node.at_key ⟨.object_ptr 0⟩ "k".toList
      ({ values := [⟨.vint 1, .integer⟩],
         objects := [[("k".toList, ⟨.value_ptr 0⟩)]] } : heap) =
      .ok ⟨.value_ptr 0⟩ ∧
    (node.set ⟨.value_ptr 0⟩ (.aint 2)
      ({ values := [⟨.vint 1, .integer⟩],
         objects := [[("k".toList, ⟨.value_ptr 0⟩)]] } : heap)).1 = ⟨.value_ptr 1⟩ ∧
    node.at_key ⟨.object_ptr 0⟩ "k".toList
      (node.set ⟨.value_ptr 0⟩ (.aint 2)
        ({ values := [⟨.vint 1, .integer⟩],
           objects := [[("k".toList, ⟨.value_ptr 0⟩)]] } : heap)).2 =
      .ok ⟨.value_ptr 0⟩ ∧
    node.try_as_integer ⟨.value_ptr 0⟩
      (node.set ⟨.value_ptr 0⟩ (.aint 2)
        ({ values := [⟨.vint 1, .integer⟩],
           objects := [[("k".toList, ⟨.value_ptr 0⟩)]] } : heap)).2 = .ok 1 ∧
    ¬ node.try_as_integer ⟨.value_ptr 0⟩
      (node.set ⟨.value_ptr 0⟩ (.aint 2)
        ({ values := [⟨.vint 1, .integer⟩],
           objects := [[("k".toList, ⟨.value_ptr 0⟩)]] } : heap)).2 = .ok 2 := by
  decide

end ljson

namespace ljson

theorem value_is_string_line_irrel (d : parsing_data) (l : List Char) (i : ℕ) :
    value_is_string { d with line := l, i := i } = value_is_string d := rfl

theorem hier_top_line_irrel (d : parsing_data) (l : List Char) (i : ℕ) :
    hier_top { d with line := l, i := i } = hier_top d := rfl

theorem is_end_statement_synth (d : parsing_data) (x : json_syn × ℕ)
    (t : List (json_syn × ℕ)) (n : ℕ)
    (hxt : d.hierarchy = x :: t) (hx : x.1 ≠ .flush_value)
    (hline : d.line = List.replicate n '\x01') (hi : d.i = 0) (hn : n ≠ 1) :
    is_end_statement d = false := by
  have hlc : line_char d = if n = 0 then '\x00' else '\x01' := by
    rw [line_char, hline, hi]
    cases n with
    | zero => rfl
    | succ m => rfl
  have h1 : (line_char d == ',') = false := by
    rw [hlc]
    cases n with
    | zero => rfl
    | succ m => rfl
  have h4 : (line_char d == '\x7d') = false := by
    rw [hlc]
    cases n with
    | zero => rfl
    | succ m => rfl
  have h2 : (d.i + 1 == d.line.length) = false := by
    rw [hi, hline, List.length_replicate]
    cases n with
    | zero => rfl
    | succ m =>
      cases m with
      | zero => exact absurd rfl hn
      | succ l => rfl
  have h3 : ((hier_top d).1 == json_syn.flush_value) = false := by
    rw [hier_top, hxt]
    exact beq_eq_false_iff_ne.mpr hx
  rw [is_end_statement, h1, h2, h3, h4]
  simp

/-- C6 (amended): after the input is exhausted with a non-empty context
    stack, the synthesized final check closes the outermost object when the
    last character is a closing brace and the top context is
    opening_bracket (the parse then succeeds), and otherwise the
    syntax-error fallback rejects the input with a parsing_error — except
    when the last character has character code 1, which the synthesized
    check mistakes for an end of statement (see the counterexample). -/
theorem C6_end_of_input_check (raw : List Char) (st : pstate)
    (hne : st.d.hierarchy ≠ []) (hraw : raw ≠ []) :
    (raw.getLast? = some '\x7d' → (hier_top st.d).1 = .opening_bracket →
      check_unhandled_hierarchy raw st =
        .ok { st with d := { st.d with
          line := ['\x7d'], i := 0, hierarchy := st.d.hierarchy.tail } }) ∧
    (¬ (raw.getLast? = some '\x7d' ∧ (hier_top st.d).1 = .opening_bracket) →
      (raw.getLastD '\x00').toNat ≠ 1 →
      (hier_top st.d).1 ≠ .flush_value →
      ∃ e, check_unhandled_hierarchy raw st = .error e ∧
        e.err_type = .parsing_error) := by
  obtain ⟨x, t, hxt⟩ := List.exists_cons_of_ne_nil hne
  have hie : st.d.hierarchy.isEmpty = false := by rw [hxt]; rfl
  have hre : raw.isEmpty = false := by
    cases raw with
    | nil => exact absurd rfl hraw
    | cons a l => rfl
  have hcond1 : ¬ ((st.d.hierarchy.isEmpty || raw.isEmpty) = true) := by
    intro hcon
    rw [hie, hre] at hcon
    exact Bool.noConfusion hcon
  constructor
  · intro hclose htop
    have hx1 : x.1 = json_syn.opening_bracket := by
      rw [hier_top, hxt] at htop
      exact htop
    have hcond2 : (raw.getLast? == some '\x7d'
        && (hier_top st.d).1 == json_syn.opening_bracket) = true := by
      rw [hclose, hier_top, hxt, List.headD_cons, hx1]
      rfl
    rw [check_unhandled_hierarchy, if_neg hcond1, if_pos hcond2]
    have hvs : value_is_string { st.d with line := ['\x7d'], i := 0 } = false := by
      rw [value_is_string_line_irrel, value_is_string, hxt]
      show (x.1 == json_syn.string_value) = false
      rw [hx1]
      rfl
    have hhcb : handle_closing_bracket
        { st with d := { st.d with line := ['\x7d'], i := 0 } } =
        .ok (true, { st with d := { st.d with
          line := ['\x7d'], i := 0, hierarchy := st.d.hierarchy.tail } }) := by
      rw [handle_closing_bracket]
      rw [if_neg (show ¬ ((line_char { st.d with line := ['\x7d'], i := 0 } != '\x7d'
        || value_is_string { st.d with line := ['\x7d'], i := 0 }) = true) from by
          rw [hvs]
          intro hcon
          exact Bool.noConfusion hcon)]
      rw [if_pos (show (!({ st.d with line := ['\x7d'], i := 0 } : parsing_data
          ).hierarchy.isEmpty
        && (hier_top { st.d with line := ['\x7d'], i := 0 }).1 ==
          json_syn.opening_bracket) = true from by
          show (!st.d.hierarchy.isEmpty
            && (hier_top st.d).1 == json_syn.opening_bracket) = true
          rw [hie, hier_top, hxt, List.headD_cons, hx1]
          rfl)]
    simp only [hhcb]
  · intro hnotclose hn1 hflush
    have hx1 : x.1 ≠ json_syn.flush_value := by
      rw [hier_top, hxt] at hflush
      exact hflush
    have hcond2 : ¬ ((raw.getLast? == some '\x7d'
        && (hier_top st.d).1 == json_syn.opening_bracket) = true) := by
      intro hcon
      obtain ⟨ha, hb⟩ := Bool.and_eq_true_iff.mp hcon
      exact hnotclose ⟨eq_of_beq ha, eq_of_beq hb⟩
    rw [check_unhandled_hierarchy, if_neg hcond1, if_neg hcond2]
    have hend : is_end_statement { st.d with
        line := List.replicate (raw.getLastD '\x00').toNat '\x01', i := 0 } = false :=
      is_end_statement_synth _ x t (raw.getLastD '\x00').toNat hxt hx1 rfl rfl hn1
    have hsyn : handle_syntax_error { st with d := { st.d with
        line := List.replicate (raw.getLastD '\x00').toNat '\x01', i := 0 } } =
        .error ⟨.parsing_error, "syntax error: " ++ expected_x_but_found_y
          { st.d with
            line := List.replicate (raw.getLastD '\x00').toNat '\x01', i := 0 }⟩ := by
      unfold handle_syntax_error
      rw [if_neg (show ¬ (is_end_statement { st.d with
          line := List.replicate (raw.getLastD '\x00').toNat '\x01', i := 0 } = true)
        from by
          rw [hend]
          intro hcon
          exact Bool.noConfusion hcon)]
    simp only [hsyn]
    exact ⟨_, rfl, rfl⟩

/-- C6 witness: the amended behaviour at concrete end-of-input states —
    a state with top context opening_bracket and a brace-terminated input
    closes successfully, while an input ending in x with an unterminated
    object context is rejected with parsing_error. -/
theorem C6_end_of_input_check_witness :
    (check_unhandled_hierarchy "\x7b\x7d".toList
        ⟨{}, { hierarchy := [(.opening_bracket, 1)] }⟩ =
      .ok ⟨{}, { hierarchy := [], line := ['\x7d'], i := 0 }⟩) ∧
    (∃ e, check_unhandled_hierarchy "\x7bx".toList
        ⟨{}, { hierarchy := [(.object, 1)] }⟩ = .error e ∧
      e.err_type = .parsing_error) := by
  constructor
  · exact (C6_end_of_input_check "\x7b\x7d".toList
      ⟨{}, { hierarchy := [(.opening_bracket, 1)] }⟩ (by decide) (by decide)).1
      (by decide) (by decide)
  · exact (C6_end_of_input_check "\x7bx".toList
      ⟨{}, { hierarchy := [(.object, 1)] }⟩ (by decide) (by decide)).2
      (by decide) (by decide) (by decide)

/-- C6 counterexample: the truncated input whose last character has code 1
    leaves the context stack non-empty at end of input, yet try_parse
    accepts it — truncated input is silently accepted here, so the claim as
    stated is false. -/
theorem C6_counterexample :
    (try_parse_states c6_input).isOk = true ∧
    ((try_parse_states c6_input).toOption.map
      (fun r => r.2.1.d.hierarchy.isEmpty)) = some false ∧
    try_parse c6_input = .ok ⟨.object_ptr 0⟩ := by
  decide

end ljson

namespace ljson

/-- C8 (amended): every recognized escape sequence parses and its raw
    escaped text round-trips verbatim through serialization, and a pending
    escape whose character is outside the recognized set is rejected by the
    escape validator with parsing_error (e.g. backslash-x fails the whole
    parse) — except that an escaped closing brace bypasses the validator
    through end-of-statement detection and is silently skipped (see the
    counterexample). -/
theorem C8_escape_validation :
    (∀ c ∈ escape_chars,
      try_parse (esc_input c) = .ok ⟨.object_ptr 0⟩ ∧
      ((⟨.object_ptr 0⟩ : node).at_key "k".toList (try_parse_heap (esc_input c))).bind
        (fun nd => nd.try_as_string (try_parse_heap (esc_input c))) =
        .ok ('a' :: '\\' :: c :: ['b']) ∧
      dump_to_string ⟨.object_ptr 0⟩ (try_parse_heap (esc_input c)) =
        esc_round_trip c) ∧
    (∀ d : parsing_data, d.raw_value.2 = .temp_escape_type →
      is_next_char_correct (line_char d) = false →
      handle_escape_char d = .error ⟨.parsing_error, "escape sequence is incorrect"⟩) ∧
    try_parse "\x7b\"k\":\"a\\xb\"\x7d".toList =
      .error ⟨.parsing_error, "escape sequence is incorrect"⟩ := by
  refine ⟨by decide, ?_, by decide⟩
  intro d ht hc
  rw [handle_escape_char]
  rw [if_neg (show ¬ (d.raw_value.2 != value_type.temp_escape_type) = true from by
    rw [ht]
    intro hcon
    exact Bool.noConfusion hcon)]
  rw [if_pos (show (!is_next_char_correct (line_char d)) = true from by
    rw [hc]
    rfl)]

/-- C8 witness: the amended contract at concrete inputs — the escaped tab
    parses and round-trips, and a concrete parser state with a pending
    escape on the character x is rejected by the validator. -/
theorem C8_escape_validation_witness :
    (try_parse (esc_input 't') = .ok ⟨.object_ptr 0⟩ ∧
      ((⟨.object_ptr 0⟩ : node).at_key "k".toList
          (try_parse_heap (esc_input 't'))).bind
        (fun nd => nd.try_as_string (try_parse_heap (esc_input 't'))) =
        .ok ('a' :: '\\' :: 't' :: ['b']) ∧
      dump_to_string ⟨.object_ptr 0⟩ (try_parse_heap (esc_input 't')) =
        esc_round_trip 't') ∧
    handle_escape_char
        { line := ['x'], i := 0, raw_value := ("a\\".toList, .temp_escape_type) } =
      .error ⟨.parsing_error, "escape sequence is incorrect"⟩ :=
  ⟨C8_escape_validation.1 't' (by decide),
   C8_escape_validation.2.1
     { line := ['x'], i := 0, raw_value := ("a\\".toList, .temp_escape_type) }
     rfl (by decide)⟩

/-- C8 counterexample: the document whose string value contains the
    unrecognized escape backslash-closing-brace parses successfully — the
    closing brace is in no recognized escape set, yet the parse does not
    fail, so the claim as stated is false. -/
theorem C8_counterexample :
    is_next_char_correct '\x7d' = false ∧
    try_parse "\x7b\"k\":\"a\\\x7db\"\x7d".toList = .ok ⟨.object_ptr 0⟩ ∧
    ((⟨.object_ptr 0⟩ : node).at_key "k".toList
        (try_parse_heap "\x7b\"k\":\"a\\\x7db\"\x7d".toList)).bind
      (fun nd => nd.try_as_string
        (try_parse_heap "\x7b\"k\":\"a\\\x7db\"\x7d".toList)) =
      .ok "a\\b".toList := by
  decide

end ljson
